import Mathlib

/-!
# Domains API of the Postmark client (`domains.go`)

A shallow embedding of `domains.go`: the records of the file, the eight domain
operations of `Client`, and the library calls they make (`fmt.Sprintf` with the
verbs `%s` and `%d`, `url.Values.Add`, `url.Values.Encode`).  The JSON form of the
`CreateDomain` payload is embedded too (`json.Marshal`, `json.Unmarshal` on a record of
two strings), down to the bytes of the string literals.

Conventions of the embedding

* A Go `string` is a sequence of bytes: `GoString = List Byte`.  String constants
  of the source are written `lit "..."` (their UTF-8 bytes).
* `int` and `int64` values are integers (`Int`); the file never does arithmetic on
  them, it only prints them in decimal.  What is proved for every integer holds for
  every `int64`.
* A Go `error` result is `Option error`, `none` being `nil`.
* `client.doRequest(parameters{...}, &res)` lives in another file of the package.
  It is a field of `Client`: given the descriptor and the destination as it is
  before the call, it yields the destination as it is after the call and the error
  it returns.  Every theorem quantifies over all clients, hence over every
  behaviour of the request executor.
-/

namespace Postmark

/-! ## Strings -/

/-- One byte of a Go string. -/
abbrev Byte := Fin 256

/-- Go `string`: an arbitrary byte sequence (not necessarily valid UTF-8). -/
abbrev GoString := List Byte

/-- Go's `utf8.RuneError`, the replacement character U+FFFD. -/
def RuneError : Nat := 0xFFFD

/-- Go's `utf8.EncodeRune`: the UTF-8 bytes of a rune; a surrogate or a value above U+10FFFF is
written as `RuneError`. -/
def EncodeRune (r : Nat) : GoString :=
  if r < 0x80 then [Fin.ofNat r]
  else if r < 0x800 then [Fin.ofNat (0xC0 + r / 64), Fin.ofNat (0x80 + r % 64)]
  else if 0x10FFFF < r ∨ (0xD800 ≤ r ∧ r ≤ 0xDFFF) then [0xEF, 0xBF, 0xBD]
  else if r < 0x10000 then
    [Fin.ofNat (0xE0 + r / 4096), Fin.ofNat (0x80 + r / 64 % 64), Fin.ofNat (0x80 + r % 64)]
  else
    [Fin.ofNat (0xF0 + r / 262144), Fin.ofNat (0x80 + r / 4096 % 64),
     Fin.ofNat (0x80 + r / 64 % 64), Fin.ofNat (0x80 + r % 64)]

/-- The bytes of a string constant of the source. -/
def lit (s : String) : GoString := s.toList.flatMap fun c => EncodeRune c.toNat

/-! ## `strconv` / `fmt` -/

/-- The ASCII digit of `d < 10`. -/
def digit (d : Nat) : Byte := Fin.ofNat (48 + d % 10)

/-- The digit loop of `strconv.formatBits` in base 10: the digits of `u` are put in
front of `acc`, least significant first.  `fuel` bounds the number of digits. -/
def formatBitsAux : Nat → Nat → GoString → GoString
  | 0, _, acc => acc
  | fuel + 1, u, acc =>
    if u < 10 then digit u :: acc
    else formatBitsAux fuel (u / 10) (digit (u % 10) :: acc)

/-- Decimal digits of `u` (`strconv.formatBits` with base 10).  `u + 1` digits of
fuel are always enough, see `formatBits_eq_decimalDigits`. -/
def formatBits (u : Nat) : GoString := formatBitsAux (u + 1) u []

/-- Go's `strconv.FormatInt(i, 10)`: an optional minus sign and the decimal digits of the
absolute value. -/
def FormatInt (i : Int) : GoString :=
  if i < 0 then 45 :: formatBits i.natAbs else formatBits i.natAbs

/-- An operand of `fmt.Sprintf`. -/
inductive Arg where
  | str (s : GoString)
  | int (i : Int)

/-- Formatting of one operand under a verb: `%s` prints a string operand verbatim,
`%d` prints an integer operand in decimal, as `strconv.FormatInt(i, 10)` does. -/
def Arg.format : Arg → GoString
  | .str s => s
  | .int i => FormatInt i

/-- Go's `fmt.Sprintf` for the format strings of this file: the verbs `%s` (byte 115 after
byte 37) and `%d` (byte 100 after byte 37) consume one operand each, every other byte
of the format is copied.  The source only applies `%s` to a string and `%d` to an
`int64`, and never has fewer operands than verbs. -/
def Sprintf : GoString → List Arg → GoString
  | 37 :: 115 :: rest, a :: args => a.format ++ Sprintf rest args
  | 37 :: 100 :: rest, a :: args => a.format ++ Sprintf rest args
  | c :: rest, args => c :: Sprintf rest args
  | [], _ => []

/-! ## `net/url` -/

/-- Go's `url.shouldEscape(c, encodeQueryComponent)`: letters, digits and `- _ . ~` are
kept, every other byte is escaped. -/
def shouldEscape (c : Byte) : Bool :=
  if (97 ≤ c.val ∧ c.val ≤ 122) ∨ (65 ≤ c.val ∧ c.val ≤ 90) ∨ (48 ≤ c.val ∧ c.val ≤ 57) then false
  else if c = 45 ∨ c = 95 ∨ c = 46 ∨ c = 126 then false
  else true

/-- The digit `"0123456789ABCDEF"[n]` of `url.escape`. -/
def upperhex (n : Nat) : Byte :=
  if n % 16 < 10 then Fin.ofNat (48 + n % 16) else Fin.ofNat (55 + n % 16)

/-- Go's `url.QueryEscape`: a space becomes `+`, a byte that must be escaped becomes `%XX`. -/
def QueryEscape (s : GoString) : GoString :=
  s.flatMap fun c =>
    if c = 32 then [43]
    else if shouldEscape c then [37, upperhex (c.val / 16), upperhex (c.val % 16)]
    else [c]

/-- Go's `<` on strings: bytewise lexicographic order. -/
def stringLess : GoString → GoString → Bool
  | [], [] => false
  | [], _ :: _ => true
  | _ :: _, [] => false
  | a :: s, b :: t => if a.val < b.val then true else if b.val < a.val then false else stringLess s t

/-- Insertion of a key into a sorted list of keys. -/
def insertKey (k : GoString) : List GoString → List GoString
  | [] => [k]
  | k' :: ks => if stringLess k' k then k' :: insertKey k ks else k :: k' :: ks

/-- Go's `slices.Sort(keys)`. -/
def sortKeys : List GoString → List GoString
  | [] => []
  | k :: ks => insertKey k (sortKeys ks)

/-- Go's `url.Values`, a `map[string][]string`: one entry per key, in no particular order. -/
abbrev Values := List (GoString × List GoString)

/-- Go's `v[key]`: the values of a key, `nil` when the key is absent. -/
def Values.get : Values → GoString → List GoString
  | [], _ => []
  | (k, xs) :: rest, key => if k = key then xs else Values.get rest key

/-- Go's `func (v Values) Add(key, value string)`: `v[key] = append(v[key], value)`. -/
def Values.Add : Values → GoString → GoString → Values
  | [], key, value => [(key, [value])]
  | (k, xs) :: rest, key, value =>
    if k = key then (k, xs ++ [value]) :: rest else (k, xs) :: Values.Add rest key value

/-- The inner loop of `Values.Encode`: the values of one key are written to the buffer,
each preceded by `&` when the buffer is not empty. -/
def encodeKey (keyEscaped : GoString) : List GoString → GoString → GoString
  | [], buf => buf
  | x :: xs, buf =>
    let buf := if buf.length > 0 then buf ++ [38] else buf
    encodeKey keyEscaped xs (buf ++ keyEscaped ++ [61] ++ QueryEscape x)

/-- The outer loop of `Values.Encode` over the sorted keys. -/
def encodeKeys (v : Values) : List GoString → GoString → GoString
  | [], buf => buf
  | k :: ks, buf => encodeKeys v ks (encodeKey (QueryEscape k) (v.get k) buf)

/-- Go's `func (v Values) Encode() string`: the "URL encoded" form (`bar=baz&foo=quux`)
sorted by key. -/
def Values.Encode (v : Values) : GoString :=
  if v.length = 0 then [] else encodeKeys v (sortKeys (v.map Prod.fst)) []

/-! ## Records of `domains.go` -/

/-- Domain contains the details of the signature of the senders. -/
structure Domain where
  Name : GoString := []
  SPFVerified : Bool := false
  SPFHost : GoString := []
  SPFTextValue : GoString := []
  DKIMVerified : Bool := false
  WeakDKIM : Bool := false
  DKIMHost : GoString := []
  DKIMTextValue : GoString := []
  DKIMPendingHost : GoString := []
  DKIMPendingTextValue : GoString := []
  DKIMRevokedHost : GoString := []
  DKIMRevokedTextValue : GoString := []
  SafeToRemoveRevokedKeyFromDNS : Bool := false
  DKIMUpdateStatus : GoString := []
  ReturnPathDomain : GoString := []
  ReturnPathDomainVerified : Bool := false
  ReturnPathDomainCNAMEValue : GoString := []
  ID : Int := 0
  deriving DecidableEq

/-- Summary of a domain in a list. -/
structure DomainInfo where
  Name : GoString := []
  SPFVerified : Bool := false
  DKIMVerified : Bool := false
  WeakDKIM : Bool := false
  ReturnPathDomainVerified : Bool := false
  ID : Int := 0
  deriving DecidableEq

/-- Payload of `CreateDomain`. -/
structure CreateDomain where
  Name : GoString := []
  ReturnPathDomain : GoString := []
  deriving DecidableEq

/-- Payload of `EditDomain`. -/
structure EditDomain where
  ReturnPathDomain : GoString := []
  deriving DecidableEq

/-- Result of `RotateDKIM`. -/
structure RotatedDKIM where
  Name : GoString := []
  DKIMVerified : Bool := false
  WeakDKIM : Bool := false
  DKIMHost : GoString := []
  DKIMTextValue : GoString := []
  DKIMPendingHost : GoString := []
  DKIMPendingTextValue : GoString := []
  DKIMRevokedHost : GoString := []
  DKIMRevokedTextValue : GoString := []
  SafeToRemoveRevokedKeyFromDNS : Bool := false
  DKIMUpdateStatus : GoString := []
  ID : Int := 0
  deriving DecidableEq

/-- DomainList is just a list of Domain as they are in the response. -/
structure DomainList where
  TotalCount : Int := 0
  Domains : List DomainInfo := []
  deriving DecidableEq

/-! ## The parts of the package that `domains.go` uses but does not declare -/

/-- Modelled from the spec: the type `APIError` is declared outside `domains.go`.
The spec's Error Value is a numeric error code and a human-readable message;
`DeleteDomain` reads the field `ErrorCode` and returns the value as an `error`. -/
structure APIError where
  ErrorCode : Int := 0
  Message : GoString := []
  deriving DecidableEq

/-- Go's `error` interface, as far as this file can tell its values apart: an
`APIError` value, or an error of any other type, identified by its text. -/
inductive error where
  | ofAPIError (e : APIError)
  | other (text : GoString)
  deriving DecidableEq

/-- Modelled from the spec: the credential kinds, declared outside `domains.go`
(the spec distinguishes an account-level and a server-level credential; the source
only names `server_token`). -/
inductive TokenType where
  | server_token
  | account_token
  deriving DecidableEq

/-- The values the source assigns to `parameters.Payload` (an `interface{}`). -/
inductive Payload where
  | ofCreateDomain (d : CreateDomain)
  | ofEditDomain (d : EditDomain)
  deriving DecidableEq

/-- Modelled from the spec: the type `parameters` is declared outside `domains.go`.
It is the spec's Operation Descriptor (HTTP method, path, optional payload, required
credential kind) with the field names of the source's composite literals; a field a
literal leaves out has its zero value (`Payload` is then `nil`). -/
structure parameters where
  Method : GoString := []
  Path : GoString := []
  Payload : Option Payload := none
  TokenType : TokenType
  deriving DecidableEq

/-- The types of the destinations `&res` that this file hands to `doRequest`. -/
inductive Dst where
  | APIError
  | Domain
  | DomainList
  | RotatedDKIM
  deriving DecidableEq

/-- The record type of a destination. -/
@[reducible] def Dst.type : Dst → Type
  | .APIError => Postmark.APIError
  | .Domain => Postmark.Domain
  | .DomainList => Postmark.DomainList
  | .RotatedDKIM => Postmark.RotatedDKIM

/-- The client.  `doRequest t opts res` is the call `client.doRequest(opts, &res)` with
`res` of type `t`: it yields the destination after the call and the returned error.
The function is declared outside `domains.go`, so it is arbitrary here. -/
structure Client where
  doRequest : (t : Dst) → parameters → t.type → t.type × Option error

/-! ## The operations of `domains.go` -/

/-- GetDomains gets a list of domains, limited by count and paged by offset. -/
def Client.GetDomains (client : Client) (count offset : Int) : DomainList × Option error :=
  let res : DomainList := {}
  let values : Values := []
  let values := values.Add (lit "count") (Sprintf (lit "%d") [.int count])
  let values := values.Add (lit "offset") (Sprintf (lit "%d") [.int offset])
  let (res, err) := client.doRequest .DomainList
    { Method := lit "GET"
      Path := Sprintf (lit "domains?%s") [.str values.Encode]
      TokenType := .server_token } res
  (res, err)

/-- GetDomain fetches a specific domain via domainID. -/
def Client.GetDomain (client : Client) (domainID : GoString) : Domain × Option error :=
  let res : Domain := {}
  let (res, err) := client.doRequest .Domain
    { Method := lit "GET"
      Path := Sprintf (lit "domains/%s") [.str domainID]
      TokenType := .server_token } res
  (res, err)

/-- CreateDomain saves a new domain. -/
def Client.CreateDomain (client : Client) (domain : CreateDomain) : Domain × Option error :=
  let res : Domain := {}
  let (res, err) := client.doRequest .Domain
    { Method := lit "POST"
      Path := lit "domains"
      Payload := some (.ofCreateDomain domain)
      TokenType := .server_token } res
  (res, err)

/-- EditDomain updates details for a specific domain with domainID. -/
def Client.EditDomain (client : Client) (domainID : GoString) (template : EditDomain) :
    Domain × Option error :=
  let res : Domain := {}
  let (res, err) := client.doRequest .Domain
    { Method := lit "PUT"
      Path := Sprintf (lit "domains/%s") [.str domainID]
      Payload := some (.ofEditDomain template)
      TokenType := .server_token } res
  (res, err)

/-- DeleteDomain removes a domain (with domainID). -/
def Client.DeleteDomain (client : Client) (domainID : GoString) : Option error :=
  let res : APIError := {}
  let (res, err) := client.doRequest .APIError
    { Method := lit "DELETE"
      Path := Sprintf (lit "domains/%s") [.str domainID]
      TokenType := .server_token } res
  if res.ErrorCode ≠ 0 then
    some (.ofAPIError res)
  else
    err

/-- VerifyDKIM verifies the DKIM record for a domain (with domainID). -/
def Client.VerifyDKIM (client : Client) (domainID : GoString) : Domain × Option error :=
  let res : Domain := {}
  let (res, err) := client.doRequest .Domain
    { Method := lit "PUT"
      Path := Sprintf (lit "domains/%s/verifyDkim") [.str domainID]
      TokenType := .server_token } res
  (res, err)

/-- VerifyReturnPath verifies the return path for a domain (with domainID). -/
def Client.VerifyReturnPath (client : Client) (domainID : GoString) : Domain × Option error :=
  let res : Domain := {}
  let (res, err) := client.doRequest .Domain
    { Method := lit "PUT"
      Path := Sprintf (lit "domains/%s/verifyReturnPath") [.str domainID]
      TokenType := .server_token } res
  (res, err)

/-- RotateDKIM rotates the DKIM record for a domain (with domainID). -/
def Client.RotateDKIM (client : Client) (domainID : GoString) : RotatedDKIM × Option error :=
  let res : RotatedDKIM := {}
  let (res, err) := client.doRequest .RotatedDKIM
    { Method := lit "POST"
      Path := Sprintf (lit "domains/%s/rotatedkim") [.str domainID]
      TokenType := .server_token } res
  (res, err)

/-! ## The table of operation descriptors of the specification -/

/-- The decimal digits of a natural number, most significant first (`0` for zero). -/
def decimalDigits (u : Nat) : List Nat :=
  if u = 0 then [0] else (Nat.digits 10 u).reverse

/-- The decimal numeral of an integer, as the specification's query parameters are
written: a minus sign for a negative number, then the digits of the absolute value. -/
def decimal (i : Int) : GoString :=
  (if i < 0 then lit "-" else []) ++ (decimalDigits i.natAbs).map digit

/-- The items of a query string: the pieces between `&`, the first piece last cut. -/
def queryItems : GoString → List GoString
  | [] => [[]]
  | c :: rest =>
    if c = 38 then [] :: queryItems rest
    else match queryItems rest with
      | [] => [[c]]
      | item :: items => (c :: item) :: items

namespace Descriptor

/-- Row List of the table: GET `domains?count=&offset=`, server credential, no payload. -/
def List (count offset : Int) : parameters :=
  { Method := lit "GET"
    Path := lit "domains?count=" ++ decimal count ++ lit "&offset=" ++ decimal offset
    Payload := none
    TokenType := .server_token }

/-- Row Get of the table: GET `domains/{id}`, server credential, no payload. -/
def Get (id : GoString) : parameters :=
  { Method := lit "GET", Path := lit "domains/" ++ id, Payload := none,
    TokenType := .server_token }

/-- Row Create of the table: POST `domains`, server credential, the payload given. -/
def Create (domain : CreateDomain) : parameters :=
  { Method := lit "POST", Path := lit "domains", Payload := some (.ofCreateDomain domain),
    TokenType := .server_token }

/-- Row Edit of the table: PUT `domains/{id}`, server credential, the payload given. -/
def Edit (id : GoString) (template : EditDomain) : parameters :=
  { Method := lit "PUT", Path := lit "domains/" ++ id,
    Payload := some (.ofEditDomain template), TokenType := .server_token }

/-- Row Delete of the table: DELETE `domains/{id}`, server credential, no payload. -/
def Delete (id : GoString) : parameters :=
  { Method := lit "DELETE", Path := lit "domains/" ++ id, Payload := none,
    TokenType := .server_token }

/-- Row VerifyDKIM of the table: PUT `domains/{id}/verifyDkim`, server credential,
no payload. -/
def VerifyDKIM (id : GoString) : parameters :=
  { Method := lit "PUT", Path := lit "domains/" ++ id ++ lit "/verifyDkim", Payload := none,
    TokenType := .server_token }

/-- Row VerifyReturnPath of the table: PUT `domains/{id}/verifyReturnPath`, server
credential, no payload. -/
def VerifyReturnPath (id : GoString) : parameters :=
  { Method := lit "PUT", Path := lit "domains/" ++ id ++ lit "/verifyReturnPath",
    Payload := none, TokenType := .server_token }

/-- Row RotateDKIM of the table: POST `domains/{id}/rotatedkim`, server credential,
no payload. -/
def RotateDKIM (id : GoString) : parameters :=
  { Method := lit "POST", Path := lit "domains/" ++ id ++ lit "/rotatedkim", Payload := none,
    TokenType := .server_token }

end Descriptor

/-! ## Request executors used as concrete inputs -/

/-- A request executor that receives HTTP 200 with the body
`{"ErrorCode":702,"Message":"Invalid domain ID"}` and decodes it into the destination:
an `APIError` destination gets both fields, the other records have no field of these
names and stay as they are; it returns no error. -/
def providerErrorClient : Client where
  doRequest := fun t _ res =>
    match t, res with
    | .APIError, _ => ({ ErrorCode := 702, Message := lit "Invalid domain ID" }, none)
    | .Domain, res => (res, none)
    | .DomainList, res => (res, none)
    | .RotatedDKIM, res => (res, none)

/-- A request executor that receives HTTP 200 with the body
`{"ErrorCode":0,"Message":"OK"}`, decodes it into the destination and returns no error. -/
def okClient : Client where
  doRequest := fun t _ res =>
    match t, res with
    | .APIError, _ => ({ ErrorCode := 0, Message := lit "OK" }, none)
    | .Domain, res => (res, none)
    | .DomainList, res => (res, none)
    | .RotatedDKIM, res => (res, none)

/-- A request executor that receives a non-2xx status with the body
`{"ErrorCode":0,"Message":""}`: it decodes the body and reports the status as an error. -/
def statusErrorClient : Client where
  doRequest := fun t _ res =>
    match t, res with
    | .APIError, _ => ({ ErrorCode := 0, Message := [] }, some (.other (lit "500 Internal Server Error")))
    | .Domain, res => (res, some (.other (lit "500 Internal Server Error")))
    | .DomainList, res => (res, some (.other (lit "500 Internal Server Error")))
    | .RotatedDKIM, res => (res, some (.other (lit "500 Internal Server Error")))

/-- A request executor whose connection fails: the destination is not written and the
transport's error is returned. -/
def transportErrorClient : Client where
  doRequest := fun _ _ res => (res, some (.other (lit "connection refused")))

/-- A request executor that decodes a body whose last field has the wrong type: the
fields before it are written into the destination, then the decoding error is returned
(`{"ErrorCode":702,"Message":17}` for an `APIError`, `{"Name":"example.com","ID":"x"}`
and the like for the other records). -/
def typeErrorClient : Client where
  doRequest := fun t _ res =>
    match t, res with
    | .APIError, res =>
      ({ res with ErrorCode := 702 }, some (.other (lit "json: cannot unmarshal number")))
    | .Domain, res =>
      ({ res with Name := lit "example.com" }, some (.other (lit "json: cannot unmarshal string")))
    | .DomainList, res =>
      ({ res with TotalCount := 3 }, some (.other (lit "json: cannot unmarshal string")))
    | .RotatedDKIM, res =>
      ({ res with Name := lit "example.com" }, some (.other (lit "json: cannot unmarshal string")))

/-- A request executor that decodes the response to a key rotation.  The domain 1234
has no pending key: the body for its path has no `DKIMPendingHost`,
`DKIMPendingTextValue` and `SafeToRemoveRevokedKeyFromDNS`, so these fields of the
destination are not written.  The body for any other path has them. -/
def noPendingKeyClient : Client where
  doRequest := fun t opts res =>
    match t, res with
    | .APIError, res => (res, none)
    | .Domain, res => (res, none)
    | .DomainList, res => (res, none)
    | .RotatedDKIM, res =>
      if opts.Path = lit "domains/1234/rotatedkim" then
        ({ res with
            Name := lit "example.com"
            DKIMVerified := true
            DKIMHost := lit "pm._domainkey.example.com"
            DKIMTextValue := lit "k=rsa; p=MIGf"
            DKIMUpdateStatus := lit "Verified"
            ID := 1234 }, none)
      else
        ({ res with
            Name := lit "example.org"
            DKIMPendingHost := lit "pm2._domainkey.example.org"
            DKIMPendingTextValue := lit "k=rsa; p=MIGg"
            SafeToRemoveRevokedKeyFromDNS := true
            DKIMUpdateStatus := lit "Pending"
            ID := 5678 }, none)

/-- A request executor for which the domain 1234 does not exist: the request for the
path `domains/1234` fails before anything is decoded, the destination is not written
and an error is returned; every other request is answered and decoded. -/
def notFoundClient : Client where
  doRequest := fun t opts res =>
    if opts.Path = lit "domains/1234" then (res, some (.other (lit "404 Not Found")))
    else
      match t, res with
      | .APIError, res => (res, none)
      | .Domain, res => ({ res with Name := lit "example.com", ID := 5678 }, none)
      | .DomainList, res => ({ res with TotalCount := 1 }, none)
      | .RotatedDKIM, res => ({ res with Name := lit "example.com", ID := 5678 }, none)

/-- A request executor that sends nothing and reports the path it was asked for: the
destination stays as it is and the returned error has the path as its text. -/
def pathEcho : Client where
  doRequest := fun _ opts res => (res, some (.other opts.Path))

/-! ## JSON bodies (`encoding/json`, `unicode/utf8`) -/

/-- The table `first` and `acceptRanges` of package `utf8`: for a leading byte, the length
of the sequence and the range of the second byte; `none` for a byte that starts no
sequence of two bytes or more. -/
def leading (p0 : Nat) : Option (Nat × Nat × Nat) :=
  if 0xC2 ≤ p0 ∧ p0 ≤ 0xDF then some (2, 0x80, 0xBF)
  else if p0 = 0xE0 then some (3, 0xA0, 0xBF)
  else if p0 = 0xED then some (3, 0x80, 0x9F)
  else if 0xE1 ≤ p0 ∧ p0 ≤ 0xEF then some (3, 0x80, 0xBF)
  else if p0 = 0xF0 then some (4, 0x90, 0xBF)
  else if 0xF1 ≤ p0 ∧ p0 ≤ 0xF3 then some (4, 0x80, 0xBF)
  else if p0 = 0xF4 then some (4, 0x80, 0x8F)
  else none

/-- Go's `utf8.DecodeRune`: the first rune of `p` and its width in bytes; `(RuneError, 0)` for
the empty string and `(RuneError, 1)` for an encoding that is invalid or cut short.  The
masks and shifts of the source are written with `%` and `*`. -/
def DecodeRune : GoString → Nat × Nat
  | [] => (RuneError, 0)
  | p0 :: rest =>
    if p0.val < 0x80 then (p0.val, 1)
    else match leading p0.val with
      | none => (RuneError, 1)
      | some (sz, lo, hi) =>
        match rest with
        | [] => (RuneError, 1)
        | b1 :: rest =>
          if b1.val < lo ∨ hi < b1.val then (RuneError, 1)
          else if sz ≤ 2 then (p0.val % 32 * 64 + b1.val % 64, 2)
          else match rest with
            | [] => (RuneError, 1)
            | b2 :: rest =>
              if b2.val < 0x80 ∨ 0xBF < b2.val then (RuneError, 1)
              else if sz ≤ 3 then (p0.val % 16 * 4096 + b1.val % 64 * 64 + b2.val % 64, 3)
              else match rest with
                | [] => (RuneError, 1)
                | b3 :: _ =>
                  if b3.val < 0x80 ∨ 0xBF < b3.val then (RuneError, 1)
                  else (p0.val % 8 * 262144 + b1.val % 64 * 4096 + b2.val % 64 * 64
                    + b3.val % 64, 4)

/-- Go's `utf8.ValidString` with the loop unrolled `fuel` times. -/
def ValidStringAux : Nat → GoString → Bool
  | 0, s => s.isEmpty
  | _ + 1, [] => true
  | fuel + 1, b :: rest =>
    if (DecodeRune (b :: rest)).1 = RuneError ∧ (DecodeRune (b :: rest)).2 = 1 then false
    else ValidStringAux fuel ((b :: rest).drop (DecodeRune (b :: rest)).2)

/-- Go's `utf8.ValidString`: the string is a sequence of valid UTF-8 encodings.  Every turn of
the loop takes a byte at least, so the length of the string is fuel enough. -/
def ValidString (s : GoString) : Bool := ValidStringAux s.length s

/-- The digit `"0123456789abcdef"[n]` of package `json`. -/
def hex (n : Nat) : Byte :=
  if n % 16 < 10 then Fin.ofNat (48 + n % 16) else Fin.ofNat (87 + n % 16)

/-- The table `htmlSafeSet` of package `json` on an ASCII byte: a byte from the space on
that is none of `"`, `&`, `<`, `>` and the backslash. -/
def htmlSafe (b : Byte) : Bool :=
  decide (0x20 ≤ b.val ∧ b.val < 0x80 ∧ b ≠ 34 ∧ b ≠ 38 ∧ b ≠ 60 ∧ b ≠ 62 ∧ b ≠ 92)

/-- One turn of the loop of `appendString` of package `json` (with `escapeHTML` set, as
`json.Marshal` has it) on a string that is not empty: the bytes written and the number
of bytes of the source taken.  A byte that is not valid UTF-8 is written as the escape
of U+FFFD.  (Backspace and form feed are written `\b` and `\f`, as the package does
since Go 1.22; before, it wrote `\u0008` and `\u000c`, which are read back alike.) -/
def appendStep : GoString → GoString × Nat
  | [] => ([], 0)
  | b :: rest =>
    if b.val < 0x80 then
      if htmlSafe b then ([b], 1)
      else if b = 92 ∨ b = 34 then ([92, b], 1)
      else if b = 8 then ([92, 98], 1)
      else if b = 12 then ([92, 102], 1)
      else if b = 10 then ([92, 110], 1)
      else if b = 13 then ([92, 114], 1)
      else if b = 9 then ([92, 116], 1)
      else ([92, 117, 48, 48, hex (b.val / 16), hex (b.val % 16)], 1)
    else
      let (c, size) := DecodeRune (b :: rest)
      if c = RuneError ∧ size = 1 then ([92, 117, 102, 102, 102, 100], 1)
      else if c = 0x2028 ∨ c = 0x2029 then ([92, 117, 50, 48, 50, hex (c % 16)], size)
      else ((b :: rest).take size, size)

/-- The loop of `appendString`, unrolled `fuel` times. -/
def appendStringAux : Nat → GoString → GoString
  | 0, _ => []
  | _ + 1, [] => []
  | fuel + 1, b :: rest =>
    (appendStep (b :: rest)).1 ++ appendStringAux fuel ((b :: rest).drop (appendStep (b :: rest)).2)

/-- Go's `appendString` of package `json`: the JSON string literal of a Go string.  Every turn
of the loop takes a byte at least, so the length of the string is fuel enough. -/
def appendString (src : GoString) : GoString :=
  34 :: appendStringAux src.length src ++ [34]

/-- The value of a hexadecimal digit (`getu4`). -/
def hexVal (c : Byte) : Option Nat :=
  if 48 ≤ c.val ∧ c.val ≤ 57 then some (c.val - 48)
  else if 97 ≤ c.val ∧ c.val ≤ 102 then some (c.val - 97 + 10)
  else if 65 ≤ c.val ∧ c.val ≤ 70 then some (c.val - 65 + 10)
  else none

/-- Go's `getu4` of package `json`: the number of a `\uXXXX` escape at the start of `s`. -/
def getu4 : GoString → Option Nat
  | 92 :: 117 :: a :: b :: c :: d :: _ =>
    match hexVal a, hexVal b, hexVal c, hexVal d with
    | some a, some b, some c, some d => some (((a * 16 + b) * 16 + c) * 16 + d)
    | _, _, _, _ => none
  | _ => none

/-- Go's `utf16.DecodeRune`: the rune of a surrogate pair, `RuneError` for anything else. -/
def decodeSurrogates (r1 r2 : Nat) : Nat :=
  if 0xD800 ≤ r1 ∧ r1 < 0xDC00 ∧ 0xDC00 ≤ r2 ∧ r2 < 0xE000 then
    (r1 - 0xD800) * 1024 + (r2 - 0xDC00) + 0x10000
  else RuneError

/-- One turn of the loop of `unquoteBytes` of package `json` inside a string literal: the
bytes written and the number of bytes of the literal taken; `none` where the scanner of
the package rejects the literal (a control character, a wrong escape). -/
def unquoteStep : GoString → Option (GoString × Nat)
  | [] => none
  | c :: rest =>
    if c = 92 then
      match rest with
      | [] => none
      | e :: _ =>
        if e = 34 ∨ e = 92 ∨ e = 47 then some ([e], 2)
        else if e = 98 then some ([8], 2)
        else if e = 102 then some ([12], 2)
        else if e = 110 then some ([10], 2)
        else if e = 114 then some ([13], 2)
        else if e = 116 then some ([9], 2)
        else if e = 117 then
          match getu4 (c :: rest) with
          | none => none
          | some rr =>
            if 0xD800 ≤ rr ∧ rr < 0xE000 then
              match getu4 ((c :: rest).drop 6) with
              | none => some (EncodeRune RuneError, 6)
              | some rr1 =>
                if decodeSurrogates rr rr1 ≠ RuneError then
                  some (EncodeRune (decodeSurrogates rr rr1), 12)
                else some (EncodeRune RuneError, 6)
            else some (EncodeRune rr, 6)
        else none
    else if c = 34 ∨ c.val < 0x20 then none
    else if c.val < 0x80 then some ([c], 1)
    else some (EncodeRune (DecodeRune (c :: rest)).1, (DecodeRune (c :: rest)).2)

/-- A string literal after its opening quote: the Go string it stands for and the input
after the closing quote; `none` for a literal the package rejects.  The loop is unrolled
`fuel` times. -/
def readStringAux : Nat → GoString → Option (GoString × GoString)
  | 0, _ => none
  | _ + 1, [] => none
  | fuel + 1, c :: rest =>
    if c = 34 then some ([], rest)
    else match unquoteStep (c :: rest) with
      | none => none
      | some (out, n) =>
        match readStringAux fuel ((c :: rest).drop n) with
        | none => none
        | some (t, after) => some (out ++ t, after)

/-- A string literal, opening quote included.  Every turn of the loop takes a byte at
least, so the length of the input is fuel enough. -/
def readString : GoString → Option (GoString × GoString)
  | 34 :: rest => readStringAux (rest.length) rest
  | _ => none

/-- The input after leading JSON white space (space, tab, line feed, carriage return). -/
def skipSpace : GoString → GoString
  | [] => []
  | c :: rest => if c = 32 ∨ c = 9 ∨ c = 10 ∨ c = 13 then skipSpace rest else c :: rest

/-- The field of `CreateDomain` that a key names, as the field is written, gets the value.
`none` for a key that is no field name as written (the package then looks for a field
whose name matches under case folding, or skips the member; this is not modelled). -/
def setField (v : CreateDomain) (key value : GoString) : Option CreateDomain :=
  if key = lit "Name" then some { v with Name := value }
  else if key = lit "ReturnPathDomain" then some { v with ReturnPathDomain := value }
  else none

/-- The members of an object, from the first key on, to the closing brace and the end of
the input.  The loop is unrolled `fuel` times. -/
def readMembers : Nat → GoString → CreateDomain → Option CreateDomain
  | 0, _, _ => none
  | fuel + 1, input, v =>
    match readString (skipSpace input) with
    | none => none
    | some (key, input) =>
      match skipSpace input with
      | 58 :: input =>
        match readString (skipSpace input) with
        | none => none
        | some (value, input) =>
          match setField v key value with
          | none => none
          | some v =>
            match skipSpace input with
            | 44 :: input => readMembers fuel input v
            | 125 :: input => if skipSpace input = [] then some v else none
            | _ => none
      | _ => none

/-- Go's `json.Unmarshal(data, &v)` for a destination `v` of type `CreateDomain`, on the
inputs of the shape `\x7b"key":"value",...\x7d` whose keys are field names of `CreateDomain`
(white space is allowed between the tokens): the destination after a call that returns
no error.  `none` stands for an input the package rejects and for an input outside this
shape. -/
def Unmarshal (data : GoString) (v : CreateDomain) : Option CreateDomain :=
  match skipSpace data with
  | 123 :: input =>
    match skipSpace input with
    | 125 :: input => if skipSpace input = [] then some v else none
    | _ => readMembers data.length input v
  | _ => none

/-- Go's `json.Marshal` on a `CreateDomain` value: an object with the members `Name` and
`ReturnPathDomain`, in the order of the fields and under the names of the fields (the
struct has no field tags), each value the string literal `appendString` writes. -/
def Marshal (d : CreateDomain) : GoString :=
  lit "\x7b\"Name\":" ++ appendString d.Name ++ lit ",\"ReturnPathDomain\":" ++
    appendString d.ReturnPathDomain ++ lit "\x7d"

/-- Go's `json.Marshal` on an `EditDomain` value: an object with the member
`ReturnPathDomain`. -/
def MarshalEditDomain (d : EditDomain) : GoString :=
  lit "\x7b\"ReturnPathDomain\":" ++ appendString d.ReturnPathDomain ++ lit "\x7d"

/-- Modelled from the spec: the step of `doRequest` (declared outside `domains.go`) that
builds the request body.  The Resource Client of the spec serializes the payload as the
request body if a payload is present, and the wire format is JSON: the body is
`json.Marshal` of the payload, and there is no body without a payload. -/
def requestBody (opts : parameters) : Option GoString :=
  match opts.Payload with
  | none => none
  | some (.ofCreateDomain d) => some (Marshal d)
  | some (.ofEditDomain d) => some (MarshalEditDomain d)

/-- A request executor that sends nothing and reports the request body it built: the
destination stays as it is and the returned error has the body as its text. -/
def bodyEcho : Client where
  doRequest := fun _ opts res => (res, (requestBody opts).map error.other)

/-! ## Predicates used in the proofs -/

/-- A byte of a decimal numeral is the minus sign or a digit. -/
def isNumeralByte (b : Byte) : Prop := b = 45 ∨ (48 ≤ b.val ∧ b.val ≤ 57)

/-- The bytes `b0 b1`, then `b2` and `b3` as far as the length `sz` goes, are a valid
UTF-8 encoding. -/
def IsRune (sz : Nat) (b0 b1 b2 b3 : Byte) : Prop :=
  ∃ lo hi, leading b0.val = some (sz, lo, hi) ∧ lo ≤ b1.val ∧ b1.val ≤ hi ∧
    (3 ≤ sz → 0x80 ≤ b2.val ∧ b2.val ≤ 0xBF) ∧ (4 ≤ sz → 0x80 ≤ b3.val ∧ b3.val ≤ 0xBF)

/-- What one turn of the encoding loop writes, for a string whose first rune is valid:
it takes the bytes of the rune, writes something that does not start with a quote, and
one turn of the decoding loop reads the bytes of the rune back from it. -/
structure StepOK (s : GoString) : Prop where
  width : (appendStep s).2 = (DecodeRune s).2
  pos : 1 ≤ (appendStep s).2
  le : (appendStep s).2 ≤ s.length
  head : ∃ o os, (appendStep s).1 = o :: os ∧ o ≠ 34
  back : ∀ tail, unquoteStep ((appendStep s).1 ++ tail) =
    some (s.take (appendStep s).2, (appendStep s).1.length)

/-! ## Decimal numerals -/

theorem lit_minus : lit "-" = [45] := by decide

theorem digit_val (d : Nat) : (digit d).val = 48 + d % 10 := by
  have h : d % 10 < 10 := Nat.mod_lt _ (by decide)
  simp only [digit, Fin.ofNat, Fin.val_mk]
  omega

theorem formatBitsAux_succ (fuel u : Nat) (acc : GoString) :
    formatBitsAux (fuel + 1) u acc =
      if u < 10 then digit u :: acc else formatBitsAux fuel (u / 10) (digit (u % 10) :: acc) :=
  rfl

theorem formatBitsAux_append (fuel u : Nat) (acc : GoString) :
    formatBitsAux fuel u acc = formatBitsAux fuel u [] ++ acc := by
  induction fuel generalizing u acc with
  | zero => simp [formatBitsAux]
  | succ n ih =>
    simp only [formatBitsAux]
    split
    · simp
    · rw [ih (u / 10) (digit (u % 10) :: acc), ih (u / 10) [digit (u % 10)]]
      simp

theorem decimalDigits_of_lt {u : Nat} (h : u < 10) : decimalDigits u = [u] := by
  unfold decimalDigits
  split
  · simp_all
  · rw [Nat.digits_of_lt 10 u (by assumption) h]
    rfl

theorem decimalDigits_of_ge {u : Nat} (h : 10 ≤ u) :
    decimalDigits u = decimalDigits (u / 10) ++ [u % 10] := by
  have h0 : u ≠ 0 := by omega
  have h1 : u / 10 ≠ 0 := by omega
  unfold decimalDigits
  rw [if_neg h0, if_neg h1, Nat.digits_def' (by decide) (by omega)]
  simp

/-- The digit loop prints the decimal digits as soon as the fuel covers them. -/
theorem formatBitsAux_eq_decimalDigits (fuel u : Nat) (h : u < 10 ^ (fuel + 1)) :
    formatBitsAux (fuel + 1) u [] = (decimalDigits u).map digit := by
  induction fuel generalizing u with
  | zero =>
    have hu : u < 10 := by simpa using h
    simp [formatBitsAux, hu, decimalDigits_of_lt hu]
  | succ n ih =>
    by_cases hu : u < 10
    · simp [formatBitsAux, hu, decimalDigits_of_lt hu]
    · have hlt : u / 10 < 10 ^ (n + 1) := by
        rw [Nat.div_lt_iff_lt_mul (by decide)]
        calc u < 10 ^ (n + 1 + 1) := h
          _ = 10 ^ (n + 1) * 10 := by ring
      rw [formatBitsAux_succ (n + 1), if_neg hu, formatBitsAux_append, ih _ hlt,
        decimalDigits_of_ge (Nat.le_of_not_lt hu)]
      simp

/-- The fuel `u + 1` of `formatBits` is enough for every `u`: the result is the decimal
numeral of `u`. -/
theorem formatBits_eq_decimalDigits (u : Nat) : formatBits u = (decimalDigits u).map digit := by
  apply formatBitsAux_eq_decimalDigits
  calc u < 2 ^ u := Nat.lt_two_pow u
    _ ≤ 10 ^ u := Nat.pow_le_pow_left (by decide) u
    _ ≤ 10 ^ (u + 1) := Nat.pow_le_pow_right (by decide) (Nat.le_succ u)

theorem FormatInt_eq_decimal (i : Int) : FormatInt i = decimal i := by
  unfold FormatInt decimal
  split <;> simp [formatBits_eq_decimalDigits, lit_minus]

theorem decimalDigits_lt (u d : Nat) (h : d ∈ decimalDigits u) : d < 10 := by
  unfold decimalDigits at h
  split at h
  · simp at h; omega
  · exact Nat.digits_lt_base (by decide) (List.mem_reverse.mp h)

theorem ofDigits_decimalDigits (u : Nat) : Nat.ofDigits 10 (decimalDigits u).reverse = u := by
  unfold decimalDigits
  split
  · subst u; simp
  · simp [Nat.ofDigits_digits]

theorem decimalDigits_injective {u v : Nat} (h : decimalDigits u = decimalDigits v) : u = v := by
  rw [← ofDigits_decimalDigits u, ← ofDigits_decimalDigits v, h]

theorem digit_injOn {a b : Nat} (ha : a < 10) (hb : b < 10) (h : digit a = digit b) : a = b := by
  have := congrArg Fin.val h
  rw [digit_val, digit_val] at this
  omega

theorem map_digit_injective : ∀ {l m : List Nat}, (∀ d ∈ l, d < 10) → (∀ d ∈ m, d < 10) →
    l.map digit = m.map digit → l = m
  | [], [], _, _, _ => rfl
  | [], _ :: _, _, _, h => by simp at h
  | _ :: _, [], _, _, h => by simp at h
  | a :: l, b :: m, hl, hm, h => by
    simp only [List.map_cons, List.cons.injEq] at h
    have hab := digit_injOn (hl a (List.mem_cons_self _ _)) (hm b (List.mem_cons_self _ _)) h.1
    have := map_digit_injective (fun d hd => hl d (List.mem_cons_of_mem _ hd))
      (fun d hd => hm d (List.mem_cons_of_mem _ hd)) h.2
    rw [hab, this]

theorem decimal_bytes (i : Int) : ∀ b ∈ decimal i, isNumeralByte b := by
  intro b hb
  unfold decimal at hb
  rw [List.mem_append] at hb
  rcases hb with hb | hb
  · left
    split at hb
    · rw [lit_minus] at hb; simpa using hb
    · simp at hb
  · right
    obtain ⟨d, _, rfl⟩ := List.mem_map.mp hb
    rw [digit_val]
    have : d % 10 < 10 := Nat.mod_lt _ (by decide)
    omega

theorem decimalDigits_ne_nil (u : Nat) : decimalDigits u ≠ [] := by
  unfold decimalDigits
  split
  · simp
  · simpa using Nat.digits_ne_nil_iff_ne_zero.mpr (by assumption)

theorem decimal_injective {i j : Int} (h : decimal i = decimal j) : i = j := by
  have key : ∀ u v : Nat, (45 : Byte) :: (decimalDigits u).map digit ≠ (decimalDigits v).map digit := by
    intro u v hc
    cases hv : decimalDigits v with
    | nil => exact decimalDigits_ne_nil v hv
    | cons d ds =>
      rw [hv] at hc
      simp only [List.map_cons, List.cons.injEq] at hc
      have := congrArg Fin.val hc.1
      rw [digit_val] at this
      have h45 : (45 : Byte).val = 45 := rfl
      omega
  have inj : ∀ u v : Nat, (decimalDigits u).map digit = (decimalDigits v).map digit → u = v :=
    fun u v e => decimalDigits_injective
      (map_digit_injective (decimalDigits_lt u) (decimalDigits_lt v) e)
  unfold decimal at h
  rw [lit_minus] at h
  by_cases hi : i < 0 <;> by_cases hj : j < 0
  · simp only [hi, hj, if_true, List.singleton_append, List.cons.injEq, true_and] at h
    have := inj _ _ h
    omega
  · simp only [hi, hj, if_true, if_false, List.singleton_append, List.nil_append] at h
    exact absurd h (key _ _)
  · simp only [hi, hj, if_true, if_false, List.singleton_append, List.nil_append] at h
    exact absurd h.symm (key _ _)
  · simp only [hi, hj, if_false, List.nil_append] at h
    have := inj _ _ h
    omega

/-! ## The path of `GetDomains` -/

theorem QueryEscape_numeral : ∀ s : GoString, (∀ b ∈ s, isNumeralByte b) → QueryEscape s = s
  | [], _ => rfl
  | b :: s, h => by
    have hb : isNumeralByte b := h b (List.mem_cons_self _ _)
    have ih := QueryEscape_numeral s (fun c hc => h c (List.mem_cons_of_mem _ hc))
    have h32 : b ≠ 32 := by
      rcases hb with hb | hb
      · rw [hb]; decide
      · intro e; rw [e] at hb; revert hb; decide
    have hesc : shouldEscape b = false := by
      rcases hb with hb | hb
      · rw [hb]; decide
      · simp [shouldEscape, hb]
    unfold QueryEscape at ih ⊢
    rw [List.flatMap_cons, ih]
    simp [h32, hesc]

theorem Sprintf_d (i : Int) : Sprintf (lit "%d") [.int i] = decimal i := by
  have : lit "%d" = [37, 100] := by decide
  rw [this]
  simp [Sprintf, Arg.format, FormatInt_eq_decimal]

theorem Values_Add_count_offset (x y : GoString) :
    Values.Add (Values.Add [] (lit "count") x) (lit "offset") y =
      [(lit "count", [x]), (lit "offset", [y])] := by
  have h : lit "count" ≠ lit "offset" := by decide
  simp [Values.Add, h]

theorem Encode_count_offset (x y : GoString) :
    Values.Encode [(lit "count", [x]), (lit "offset", [y])] =
      lit "count=" ++ QueryEscape x ++ lit "&offset=" ++ QueryEscape y := by
  have hsort : sortKeys [lit "count", lit "offset"] = [lit "count", lit "offset"] := by decide
  have hne : lit "offset" ≠ lit "count" := by decide
  have hc : QueryEscape (lit "count") = lit "count" := by decide
  have ho : QueryEscape (lit "offset") = lit "offset" := by decide
  have h1 : lit "count=" = lit "count" ++ [61] := by decide
  have h2 : lit "&offset=" = [38] ++ lit "offset" ++ [61] := by decide
  have hlen : (lit "count").length = 5 := by decide
  simp only [Values.Encode, List.length_cons, List.length_nil, List.map_cons, List.map_nil,
    hsort, encodeKeys, Values.get, hne, if_true, if_false, encodeKey, hc, ho, h1, h2]
  simp [hlen]

theorem GetDomains_path (count offset : Int) :
    Sprintf (lit "domains?%s")
        [.str (Values.Encode (Values.Add (Values.Add [] (lit "count")
          (Sprintf (lit "%d") [.int count])) (lit "offset") (Sprintf (lit "%d") [.int offset])))] =
      lit "domains?count=" ++ decimal count ++ lit "&offset=" ++ decimal offset := by
  have hf : ∀ s : GoString, Sprintf (lit "domains?%s") [.str s] = lit "domains?" ++ s := by
    intro s
    have : lit "domains?%s" = lit "domains?" ++ [37, 115] := by decide
    rw [this]
    simp [lit, EncodeRune, Sprintf, Arg.format]
  have hp : lit "domains?count=" = lit "domains?" ++ lit "count=" := by decide
  rw [Sprintf_d, Sprintf_d, Values_Add_count_offset, Encode_count_offset, hf,
    QueryEscape_numeral _ (decimal_bytes count), QueryEscape_numeral _ (decimal_bytes offset), hp]
  simp

theorem Sprintf_id (domainID : GoString) :
    Sprintf (lit "domains/%s") [.str domainID] = lit "domains/" ++ domainID := by
  simp [lit, EncodeRune, Sprintf, Arg.format]

theorem Sprintf_verifyDkim (domainID : GoString) :
    Sprintf (lit "domains/%s/verifyDkim") [.str domainID] =
      lit "domains/" ++ domainID ++ lit "/verifyDkim" := rfl

theorem Sprintf_verifyReturnPath (domainID : GoString) :
    Sprintf (lit "domains/%s/verifyReturnPath") [.str domainID] =
      lit "domains/" ++ domainID ++ lit "/verifyReturnPath" := rfl

theorem Sprintf_rotatedkim (domainID : GoString) :
    Sprintf (lit "domains/%s/rotatedkim") [.str domainID] =
      lit "domains/" ++ domainID ++ lit "/rotatedkim" := rfl

/-! ## Each operation is one call of the request executor -/

theorem GetDomains_eq (client : Client) (count offset : Int) :
    client.GetDomains count offset =
      client.doRequest .DomainList (Descriptor.List count offset) {} := by
  simp only [Client.GetDomains, Descriptor.List, GetDomains_path, Prod.mk.eta]

theorem GetDomain_eq (client : Client) (domainID : GoString) :
    client.GetDomain domainID = client.doRequest .Domain (Descriptor.Get domainID) {} := by
  simp only [Client.GetDomain, Descriptor.Get, Sprintf_id, Prod.mk.eta]

theorem CreateDomain_eq (client : Client) (domain : CreateDomain) :
    client.CreateDomain domain = client.doRequest .Domain (Descriptor.Create domain) {} := rfl

theorem EditDomain_eq (client : Client) (domainID : GoString) (template : EditDomain) :
    client.EditDomain domainID template =
      client.doRequest .Domain (Descriptor.Edit domainID template) {} := by
  simp only [Client.EditDomain, Descriptor.Edit, Sprintf_id, Prod.mk.eta]

theorem DeleteDomain_eq (client : Client) (domainID : GoString) :
    client.DeleteDomain domainID =
      if (client.doRequest .APIError (Descriptor.Delete domainID) {}).1.ErrorCode ≠ 0 then
        some (.ofAPIError (client.doRequest .APIError (Descriptor.Delete domainID) {}).1)
      else (client.doRequest .APIError (Descriptor.Delete domainID) {}).2 := by
  simp only [Client.DeleteDomain, Descriptor.Delete, Sprintf_id, Prod.mk.eta]

theorem VerifyDKIM_eq (client : Client) (domainID : GoString) :
    client.VerifyDKIM domainID =
      client.doRequest .Domain (Descriptor.VerifyDKIM domainID) {} := by
  simp only [Client.VerifyDKIM, Descriptor.VerifyDKIM, Sprintf_verifyDkim, Prod.mk.eta]

theorem VerifyReturnPath_eq (client : Client) (domainID : GoString) :
    client.VerifyReturnPath domainID =
      client.doRequest .Domain (Descriptor.VerifyReturnPath domainID) {} := by
  simp only [Client.VerifyReturnPath, Descriptor.VerifyReturnPath, Sprintf_verifyReturnPath, Prod.mk.eta]

theorem RotateDKIM_eq (client : Client) (domainID : GoString) :
    client.RotateDKIM domainID =
      client.doRequest .RotatedDKIM (Descriptor.RotateDKIM domainID) {} := by
  simp only [Client.RotateDKIM, Descriptor.RotateDKIM, Sprintf_rotatedkim, Prod.mk.eta]

/-! ## Query strings -/

theorem queryItems_of_not_mem : ∀ s : GoString, (38 : Byte) ∉ s → queryItems s = [s]
  | [], _ => rfl
  | c :: s, h => by
    have hc : c ≠ 38 := fun e => h (e ▸ List.mem_cons_self _ _)
    have ih := queryItems_of_not_mem s (fun hm => h (List.mem_cons_of_mem _ hm))
    simp [queryItems, hc, ih]

theorem queryItems_append : ∀ (s t : GoString), (38 : Byte) ∉ s →
    queryItems (s ++ 38 :: t) = s :: queryItems t
  | [], t, _ => by simp [queryItems]
  | c :: s, t, h => by
    have hc : c ≠ 38 := fun e => h (e ▸ List.mem_cons_self _ _)
    have ih := queryItems_append s t (fun hm => h (List.mem_cons_of_mem _ hm))
    simp [queryItems, hc, ih]

theorem amp_not_mem_decimal (i : Int) : (38 : Byte) ∉ decimal i := by
  intro h
  rcases decimal_bytes i _ h with h | h
  · revert h; decide
  · revert h; decide

theorem queryItems_count_offset (count offset : Int) :
    queryItems (lit "count=" ++ decimal count ++ lit "&offset=" ++ decimal offset) =
      [lit "count=" ++ decimal count, lit "offset=" ++ decimal offset] := by
  have h1 : lit "&offset=" = 38 :: lit "offset=" := by decide
  have hc : (38 : Byte) ∉ lit "count=" := by decide
  have ho : (38 : Byte) ∉ lit "offset=" := by decide
  rw [h1, List.append_assoc, List.cons_append, queryItems_append, queryItems_of_not_mem]
  · simp only [List.mem_append, not_or]
    exact ⟨ho, amp_not_mem_decimal offset⟩
  · simp only [List.mem_append, not_or]
    exact ⟨hc, amp_not_mem_decimal count⟩

theorem path_injective {c1 o1 c2 o2 : Int}
    (h : (Descriptor.List c1 o1).Path = (Descriptor.List c2 o2).Path) : c1 = c2 ∧ o1 = o2 := by
  have h1 : lit "&offset=" = 38 :: lit "offset=" := by decide
  simp only [Descriptor.List, List.append_assoc, List.append_cancel_left_eq, h1,
    List.cons_append] at h
  have e := congrArg queryItems h
  rw [queryItems_append _ _ (amp_not_mem_decimal c1),
    queryItems_append _ _ (amp_not_mem_decimal c2)] at e
  have hc := decimal_injective (List.cons.inj e).1
  subst hc
  simp only [List.append_cancel_left_eq, List.cons.injEq, true_and] at h
  exact ⟨rfl, decimal_injective h⟩

/-! ## UTF-8 and JSON string literals -/

theorem leading_cases {p0 sz lo hi : Nat} (h : leading p0 = some (sz, lo, hi)) :
    (sz = 2 ∧ 0xC2 ≤ p0 ∧ p0 ≤ 0xDF ∧ lo = 0x80 ∧ hi = 0xBF) ∨
    (sz = 3 ∧ p0 = 0xE0 ∧ lo = 0xA0 ∧ hi = 0xBF) ∨
    (sz = 3 ∧ p0 = 0xED ∧ lo = 0x80 ∧ hi = 0x9F) ∨
    (sz = 3 ∧ 0xE1 ≤ p0 ∧ p0 ≤ 0xEF ∧ p0 ≠ 0xED ∧ lo = 0x80 ∧ hi = 0xBF) ∨
    (sz = 4 ∧ p0 = 0xF0 ∧ lo = 0x90 ∧ hi = 0xBF) ∨
    (sz = 4 ∧ 0xF1 ≤ p0 ∧ p0 ≤ 0xF3 ∧ lo = 0x80 ∧ hi = 0xBF) ∨
    (sz = 4 ∧ p0 = 0xF4 ∧ lo = 0x80 ∧ hi = 0x8F) := by
  unfold leading at h
  by_cases c1 : 0xC2 ≤ p0 ∧ p0 ≤ 0xDF
  · rw [if_pos c1] at h
    cases h
    exact Or.inl ⟨rfl, c1.1, c1.2, rfl, rfl⟩
  rw [if_neg c1] at h
  by_cases c2 : p0 = 0xE0
  · rw [if_pos c2] at h
    cases h
    exact Or.inr (Or.inl ⟨rfl, c2, rfl, rfl⟩)
  rw [if_neg c2] at h
  by_cases c3 : p0 = 0xED
  · rw [if_pos c3] at h
    cases h
    exact Or.inr (Or.inr (Or.inl ⟨rfl, c3, rfl, rfl⟩))
  rw [if_neg c3] at h
  by_cases c4 : 0xE1 ≤ p0 ∧ p0 ≤ 0xEF
  · rw [if_pos c4] at h
    cases h
    exact Or.inr (Or.inr (Or.inr (Or.inl ⟨rfl, c4.1, c4.2, c3, rfl, rfl⟩)))
  rw [if_neg c4] at h
  by_cases c5 : p0 = 0xF0
  · rw [if_pos c5] at h
    cases h
    exact Or.inr (Or.inr (Or.inr (Or.inr (Or.inl ⟨rfl, c5, rfl, rfl⟩))))
  rw [if_neg c5] at h
  by_cases c6 : 0xF1 ≤ p0 ∧ p0 ≤ 0xF3
  · rw [if_pos c6] at h
    cases h
    exact Or.inr (Or.inr (Or.inr (Or.inr (Or.inr (Or.inl ⟨rfl, c6.1, c6.2, rfl, rfl⟩)))))
  rw [if_neg c6] at h
  by_cases c7 : p0 = 0xF4
  · rw [if_pos c7] at h
    cases h
    exact Or.inr (Or.inr (Or.inr (Or.inr (Or.inr (Or.inr ⟨rfl, c7, rfl, rfl⟩)))))
  rw [if_neg c7] at h
  cases h

/-- What `DecodeRune` gives on a string that starts with a byte from `0x80` on: the
error of width 1, or a valid encoding of two, three or four bytes. -/
theorem DecodeRune_cases (b0 : Byte) (rest : GoString) (hb : 0x80 ≤ b0.val) :
    DecodeRune (b0 :: rest) = (RuneError, 1) ∨
    (∃ b1 tail, rest = b1 :: tail ∧ IsRune 2 b0 b1 0 0 ∧
      DecodeRune (b0 :: rest) = (b0.val % 32 * 64 + b1.val % 64, 2)) ∨
    (∃ b1 b2 tail, rest = b1 :: b2 :: tail ∧ IsRune 3 b0 b1 b2 0 ∧
      DecodeRune (b0 :: rest) = (b0.val % 16 * 4096 + b1.val % 64 * 64 + b2.val % 64, 3)) ∨
    (∃ b1 b2 b3 tail, rest = b1 :: b2 :: b3 :: tail ∧ IsRune 4 b0 b1 b2 b3 ∧
      DecodeRune (b0 :: rest) =
        (b0.val % 8 * 262144 + b1.val % 64 * 4096 + b2.val % 64 * 64 + b3.val % 64, 4)) := by
  have hb' : ¬ b0.val < 0x80 := by omega
  cases hl : leading b0.val with
  | none => left; simp [DecodeRune, hb', hl]
  | some t =>
    obtain ⟨sz, lo, hi⟩ := t
    have hsz : sz = 2 ∨ sz = 3 ∨ sz = 4 := by
      rcases leading_cases hl with h | h | h | h | h | h | h <;> omega
    cases rest with
    | nil => left; simp [DecodeRune, hb', hl]
    | cons b1 rest =>
      by_cases h1 : b1.val < lo ∨ hi < b1.val
      · left; simp [DecodeRune, hb', hl, h1]
      · by_cases h2 : sz ≤ 2
        · right; left
          have : sz = 2 := by omega
          subst this
          refine ⟨b1, rest, rfl, ⟨lo, hi, hl, by omega, by omega, by omega, by omega⟩, ?_⟩
          simp [DecodeRune, hb', hl, h1]
        · cases rest with
          | nil => left; simp [DecodeRune, hb', hl, h1, h2]
          | cons b2 rest =>
            by_cases h3 : b2.val < 0x80 ∨ 0xBF < b2.val
            · left; simp [DecodeRune, hb', hl, h1, h2, h3]
            · by_cases h4 : sz ≤ 3
              · right; right; left
                have : sz = 3 := by omega
                subst this
                refine ⟨b1, b2, rest, rfl, ⟨lo, hi, hl, by omega, by omega, by omega, by omega⟩, ?_⟩
                simp [DecodeRune, hb', hl, h1, h3]
              · have : sz = 4 := by omega
                subst this
                cases rest with
                | nil => left; simp [DecodeRune, hb', hl, h1, h3]
                | cons b3 rest =>
                  by_cases h5 : b3.val < 0x80 ∨ 0xBF < b3.val
                  · left; simp [DecodeRune, hb', hl, h1, h3, h5]
                  · right; right; right
                    refine ⟨b1, b2, b3, rest, rfl,
                      ⟨lo, hi, hl, by omega, by omega, by omega, by omega⟩, ?_⟩
                    simp [DecodeRune, hb', hl, h1, h3, h5]

theorem ofNat_eq_byte {n : Nat} {b : Byte} (h : n = b.val) : (Fin.ofNat n : Byte) = b := by
  apply Fin.ext
  show n % (255 + 1) = b.val
  have := b.isLt
  omega

theorem IsRune_two {b0 b1 x y : Byte} (h : IsRune 2 b0 b1 x y) :
    0xC2 ≤ b0.val ∧ b0.val ≤ 0xDF ∧ 0x80 ≤ b1.val ∧ b1.val ≤ 0xBF := by
  obtain ⟨lo, hi, hl, h1, h2, -, -⟩ := h
  rcases leading_cases hl with h | h | h | h | h | h | h <;> omega

theorem IsRune_three {b0 b1 b2 y : Byte} (h : IsRune 3 b0 b1 b2 y) :
    0xE0 ≤ b0.val ∧ b0.val ≤ 0xEF ∧ 0x80 ≤ b1.val ∧ b1.val ≤ 0xBF ∧
      (b0.val = 0xE0 → 0xA0 ≤ b1.val) ∧ (b0.val = 0xED → b1.val ≤ 0x9F) ∧
      0x80 ≤ b2.val ∧ b2.val ≤ 0xBF := by
  obtain ⟨lo, hi, hl, h1, h2, h3, -⟩ := h
  have h3 := h3 (by rcases leading_cases hl with h | h | h | h | h | h | h <;> omega)
  rcases leading_cases hl with h | h | h | h | h | h | h <;> omega

theorem IsRune_four {b0 b1 b2 b3 : Byte} (h : IsRune 4 b0 b1 b2 b3) :
    0xF0 ≤ b0.val ∧ b0.val ≤ 0xF4 ∧ 0x80 ≤ b1.val ∧ b1.val ≤ 0xBF ∧
      (b0.val = 0xF0 → 0x90 ≤ b1.val) ∧ (b0.val = 0xF4 → b1.val ≤ 0x8F) ∧
      0x80 ≤ b2.val ∧ b2.val ≤ 0xBF ∧ 0x80 ≤ b3.val ∧ b3.val ≤ 0xBF := by
  obtain ⟨lo, hi, hl, h1, h2, h3, h4⟩ := h
  have h3 := h3 (by rcases leading_cases hl with h | h | h | h | h | h | h <;> omega)
  have h4 := h4 (by rcases leading_cases hl with h | h | h | h | h | h | h <;> omega)
  rcases leading_cases hl with h | h | h | h | h | h | h <;> omega

theorem DecodeRune_two {b0 b1 x y : Byte} (h : IsRune 2 b0 b1 x y) (tail : GoString) :
    DecodeRune (b0 :: b1 :: tail) = (b0.val % 32 * 64 + b1.val % 64, 2) := by
  have hb := IsRune_two h
  obtain ⟨lo, hi, hl, h1, h2, -, -⟩ := h
  have hb0 : ¬ b0.val < 0x80 := by omega
  have hr : ¬ (b1.val < lo ∨ hi < b1.val) := by omega
  simp [DecodeRune, hb0, hl, hr]

theorem DecodeRune_three {b0 b1 b2 y : Byte} (h : IsRune 3 b0 b1 b2 y) (tail : GoString) :
    DecodeRune (b0 :: b1 :: b2 :: tail) =
      (b0.val % 16 * 4096 + b1.val % 64 * 64 + b2.val % 64, 3) := by
  have hb := IsRune_three h
  obtain ⟨lo, hi, hl, h1, h2, -, -⟩ := h
  have hb0 : ¬ b0.val < 0x80 := by omega
  have hr : ¬ (b1.val < lo ∨ hi < b1.val) := by omega
  have hr2 : ¬ (b2.val < 0x80 ∨ 0xBF < b2.val) := by omega
  simp [DecodeRune, hb0, hl, hr, hr2]

theorem DecodeRune_four {b0 b1 b2 b3 : Byte} (h : IsRune 4 b0 b1 b2 b3) (tail : GoString) :
    DecodeRune (b0 :: b1 :: b2 :: b3 :: tail) =
      (b0.val % 8 * 262144 + b1.val % 64 * 4096 + b2.val % 64 * 64 + b3.val % 64, 4) := by
  have hb := IsRune_four h
  obtain ⟨lo, hi, hl, h1, h2, -, -⟩ := h
  have hb0 : ¬ b0.val < 0x80 := by omega
  have hr : ¬ (b1.val < lo ∨ hi < b1.val) := by omega
  have hr2 : ¬ (b2.val < 0x80 ∨ 0xBF < b2.val) := by omega
  have hr3 : ¬ (b3.val < 0x80 ∨ 0xBF < b3.val) := by omega
  simp [DecodeRune, hb0, hl, hr, hr2, hr3]

theorem EncodeRune_two {b0 b1 x y : Byte} (h : IsRune 2 b0 b1 x y) :
    EncodeRune (b0.val % 32 * 64 + b1.val % 64) = [b0, b1] := by
  obtain ⟨h1, h2, h3, h4⟩ := IsRune_two h
  clear h
  generalize hv : b0.val % 32 * 64 + b1.val % 64 = v
  have c1 : ¬ v < 0x80 := by omega
  have c2 : v < 0x800 := by omega
  have e0 : 0xC0 + v / 64 = b0.val := by omega
  have e1 : 0x80 + v % 64 = b1.val := by omega
  rw [EncodeRune, if_neg c1, if_pos c2, ofNat_eq_byte e0, ofNat_eq_byte e1]

theorem EncodeRune_three {b0 b1 b2 y : Byte} (h : IsRune 3 b0 b1 b2 y) :
    EncodeRune (b0.val % 16 * 4096 + b1.val % 64 * 64 + b2.val % 64) = [b0, b1, b2] := by
  obtain ⟨h1, h2, h3, h4, h5, h6, h7, h8⟩ := IsRune_three h
  clear h
  generalize hv : b0.val % 16 * 4096 + b1.val % 64 * 64 + b2.val % 64 = v
  have c1 : ¬ v < 0x80 := by omega
  have c2 : ¬ v < 0x800 := by omega
  have c3 : ¬ (0x10FFFF < v ∨ (0xD800 ≤ v ∧ v ≤ 0xDFFF)) := by omega
  have c4 : v < 0x10000 := by omega
  have e0 : 0xE0 + v / 4096 = b0.val := by omega
  have e1 : 0x80 + v / 64 % 64 = b1.val := by omega
  have e2 : 0x80 + v % 64 = b2.val := by omega
  rw [EncodeRune, if_neg c1, if_neg c2, if_neg c3, if_pos c4, ofNat_eq_byte e0,
    ofNat_eq_byte e1, ofNat_eq_byte e2]

theorem EncodeRune_four {b0 b1 b2 b3 : Byte} (h : IsRune 4 b0 b1 b2 b3) :
    EncodeRune (b0.val % 8 * 262144 + b1.val % 64 * 4096 + b2.val % 64 * 64 + b3.val % 64) =
      [b0, b1, b2, b3] := by
  obtain ⟨h1, h2, h3, h4, h5, h6, h7, h8, h9, h10⟩ := IsRune_four h
  clear h
  generalize hv : b0.val % 8 * 262144 + b1.val % 64 * 4096 + b2.val % 64 * 64 + b3.val % 64 = v
  have c1 : ¬ v < 0x80 := by omega
  have c2 : ¬ v < 0x800 := by omega
  have c3 : ¬ (0x10FFFF < v ∨ (0xD800 ≤ v ∧ v ≤ 0xDFFF)) := by omega
  have c4 : ¬ v < 0x10000 := by omega
  have e0 : 0xF0 + v / 262144 = b0.val := by omega
  have e1 : 0x80 + v / 4096 % 64 = b1.val := by omega
  have e2 : 0x80 + v / 64 % 64 = b2.val := by omega
  have e3 : 0x80 + v % 64 = b3.val := by omega
  rw [EncodeRune, if_neg c1, if_neg c2, if_neg c3, if_neg c4, ofNat_eq_byte e0,
    ofNat_eq_byte e1, ofNat_eq_byte e2, ofNat_eq_byte e3]

/-- A valid encoding at the start of a string: its bytes `pre` are the encoding of the
rune that `DecodeRune` reads, whatever follows them. -/
theorem DecodeRune_valid (b : Byte) (rest : GoString) (hb : 0x80 ≤ b.val)
    (hv : DecodeRune (b :: rest) ≠ (RuneError, 1)) :
    ∃ pre tail, b :: rest = pre ++ tail ∧ (∃ t, pre = b :: t) ∧ 2 ≤ pre.length ∧
      EncodeRune (DecodeRune (b :: rest)).1 = pre ∧
      ∀ tail', DecodeRune (pre ++ tail') = ((DecodeRune (b :: rest)).1, pre.length) := by
  rcases DecodeRune_cases b rest hb with h | ⟨b1, tail, rfl, hr, hd⟩ |
      ⟨b1, b2, tail, rfl, hr, hd⟩ | ⟨b1, b2, b3, tail, rfl, hr, hd⟩
  · exact absurd h hv
  · refine ⟨[b, b1], tail, rfl, ⟨_, rfl⟩, by simp, ?_, fun tail' => ?_⟩
    · rw [hd]; exact EncodeRune_two hr
    · rw [hd]; exact DecodeRune_two hr tail'
  · refine ⟨[b, b1, b2], tail, rfl, ⟨_, rfl⟩, by simp, ?_, fun tail' => ?_⟩
    · rw [hd]; exact EncodeRune_three hr
    · rw [hd]; exact DecodeRune_three hr tail'
  · refine ⟨[b, b1, b2, b3], tail, rfl, ⟨_, rfl⟩, by simp, ?_, fun tail' => ?_⟩
    · rw [hd]; exact EncodeRune_four hr
    · rw [hd]; exact DecodeRune_four hr tail'

theorem hexVal_hex (n : Nat) : hexVal (hex n) = some (n % 16) := by
  have key : ∀ m, m < 16 → hexVal (hex m) = some m := by decide
  have h := key (n % 16) (Nat.mod_lt _ (by decide))
  have e : hex (n % 16) = hex n := by simp [hex]
  rw [e] at h
  exact h

theorem getu4_hex (a b c d : Nat) (tail : GoString) :
    getu4 (92 :: 117 :: hex a :: hex b :: hex c :: hex d :: tail) =
      some (((a % 16 * 16 + b % 16) * 16 + c % 16) * 16 + d % 16) := by
  simp [getu4, hexVal_hex]

theorem hex_zero : hex 0 = 48 := by decide
theorem hex_two : hex 2 = 50 := by decide

/-- The escape `\u00XX` of an ASCII byte is read back as the byte. -/
theorem unquoteStep_u00 (b : Byte) (hb : b.val < 0x80) (tail : GoString) :
    unquoteStep (92 :: 117 :: 48 :: 48 :: hex (b.val / 16) :: hex (b.val % 16) :: tail) =
      some ([b], 6) := by
  have hg := getu4_hex 0 0 (b.val / 16) (b.val % 16) tail
  rw [hex_zero] at hg
  have hval : ((0 % 16 * 16 + 0 % 16) * 16 + b.val / 16 % 16) * 16 + b.val % 16 % 16 = b.val := by
    omega
  rw [hval] at hg
  have hs : ¬ (0xD800 ≤ b.val ∧ b.val < 0xE000) := by omega
  have he : EncodeRune b.val = [b] := by
    rw [EncodeRune, if_pos hb]
    exact congrArg (· :: []) (ofNat_eq_byte rfl)
  simp only [unquoteStep, hg, he, hs]
  simp


theorem stepOK_ascii (b : Byte) (rest : GoString) (hb : b.val < 0x80) : StepOK (b :: rest) := by
  have hd : DecodeRune (b :: rest) = (b.val, 1) := by simp [DecodeRune, hb]
  by_cases hs : htmlSafe b = true
  · have ha : appendStep (b :: rest) = ([b], 1) := by simp [appendStep, hb, hs]
    simp only [htmlSafe, decide_eq_true_eq] at hs
    have h92 : b ≠ 92 := hs.2.2.2.2.2.2
    have h34 : ¬ (b = 34 ∨ b.val < 0x20) := by
      intro h; rcases h with h | h
      · exact hs.2.2.1 h
      · omega
    refine ⟨by rw [ha, hd], by rw [ha], by rw [ha]; simp, ⟨b, [], by rw [ha], hs.2.2.1⟩, ?_⟩
    intro tail
    rw [ha]
    simp [unquoteStep, h92, h34, hb]
  · by_cases h1 : b = 92 ∨ b = 34
    · have ha : appendStep (b :: rest) = ([92, b], 1) := by simp [appendStep, hb, hs, h1]
      refine ⟨by rw [ha, hd], by rw [ha], by rw [ha]; simp, ⟨92, [b], by rw [ha], by decide⟩, ?_⟩
      intro tail
      rw [ha]
      rcases h1 with rfl | rfl <;> simp [unquoteStep]
    · have hne : b ≠ 92 ∧ b ≠ 34 := by
        constructor <;> intro h <;> exact h1 (by simp [h])
      by_cases h8 : b = 8
      · subst h8
        have ha : appendStep (8 :: rest) = ([92, 98], 1) := rfl
        refine ⟨by rw [ha, hd], by rw [ha], by rw [ha]; simp, ⟨92, [98], by rw [ha], by decide⟩, ?_⟩
        intro tail
        rw [ha]
        rfl
      by_cases h12 : b = 12
      · subst h12
        have ha : appendStep (12 :: rest) = ([92, 102], 1) := rfl
        refine ⟨by rw [ha, hd], by rw [ha], by rw [ha]; simp, ⟨92, [102], by rw [ha], by decide⟩, ?_⟩
        intro tail
        rw [ha]
        rfl
      by_cases h10 : b = 10
      · subst h10
        have ha : appendStep (10 :: rest) = ([92, 110], 1) := rfl
        refine ⟨by rw [ha, hd], by rw [ha], by rw [ha]; simp, ⟨92, [110], by rw [ha], by decide⟩, ?_⟩
        intro tail
        rw [ha]
        rfl
      by_cases h13 : b = 13
      · subst h13
        have ha : appendStep (13 :: rest) = ([92, 114], 1) := rfl
        refine ⟨by rw [ha, hd], by rw [ha], by rw [ha]; simp, ⟨92, [114], by rw [ha], by decide⟩, ?_⟩
        intro tail
        rw [ha]
        rfl
      by_cases h9 : b = 9
      · subst h9
        have ha : appendStep (9 :: rest) = ([92, 116], 1) := rfl
        refine ⟨by rw [ha, hd], by rw [ha], by rw [ha]; simp, ⟨92, [116], by rw [ha], by decide⟩, ?_⟩
        intro tail
        rw [ha]
        rfl
      have ha : appendStep (b :: rest) =
          ([92, 117, 48, 48, hex (b.val / 16), hex (b.val % 16)], 1) := by
        simp [appendStep, hb, hs, hne.1, hne.2, h8, h12, h10, h13, h9]
      refine ⟨by rw [ha, hd], by rw [ha], by rw [ha]; simp, ⟨92, _, by rw [ha], by decide⟩, ?_⟩
      intro tail
      rw [ha]
      exact unquoteStep_u00 b hb tail


theorem stepOK_multibyte (b : Byte) (rest : GoString) (hb : 0x80 ≤ b.val)
    (hv : DecodeRune (b :: rest) ≠ (RuneError, 1)) : StepOK (b :: rest) := by
  obtain ⟨pre, tail, hsplit, ⟨t, hpre⟩, hlen, henc, hdec⟩ := DecodeRune_valid b rest hb hv
  have hb' : ¬ b.val < 0x80 := by omega
  have hsize : (DecodeRune (b :: rest)).2 = pre.length := by
    have := hdec tail
    rw [← hsplit] at this
    exact congrArg Prod.snd this
  have hv' : ¬ ((DecodeRune (b :: rest)).1 = RuneError ∧ (DecodeRune (b :: rest)).2 = 1) := by
    rw [hsize]; omega
  have hv2 : ¬ ((DecodeRune (b :: rest)).1 = RuneError ∧ pre.length = 1) := by omega
  have htake : (b :: rest).take pre.length = pre := by
    rw [hsplit]; simp
  have hle : pre.length ≤ (b :: rest).length := by
    rw [hsplit]; simp
  by_cases hc : (DecodeRune (b :: rest)).1 = 0x2028 ∨ (DecodeRune (b :: rest)).1 = 0x2029
  · have ha : appendStep (b :: rest) =
        ([92, 117, 50, 48, 50, hex ((DecodeRune (b :: rest)).1 % 16)], pre.length) := by
      simp only [appendStep, hb', hv2, hc, if_true, if_false, hsize]
    refine ⟨by rw [ha, hsize], by rw [ha]; show 1 ≤ pre.length; omega, by rw [ha]; exact hle,
      ⟨92, _, by rw [ha], by decide⟩, ?_⟩
    intro tail'
    rw [ha]
    show unquoteStep (92 :: 117 :: 50 :: 48 :: 50 :: hex ((DecodeRune (b :: rest)).1 % 16) :: tail') =
      some ((b :: rest).take pre.length, 6)
    rw [htake, ← henc]
    rcases hc with hc | hc <;> rw [hc] <;> rfl
  · have ha : appendStep (b :: rest) = (pre, pre.length) := by
      simp only [appendStep, hb', hv2, hc, if_false, hsize, htake]
    refine ⟨by rw [ha, hsize], by rw [ha]; show 1 ≤ pre.length; omega, by rw [ha]; exact hle,
      ⟨b, t, by rw [ha, hpre], ?_⟩, ?_⟩
    · intro h; rw [h] at hb; revert hb; decide
    · intro tail'
      rw [ha]
      show unquoteStep (pre ++ tail') = some ((b :: rest).take pre.length, pre.length)
      have h92 : b ≠ 92 := by intro h; rw [h] at hb; revert hb; decide
      have h34 : ¬ (b = 34 ∨ b.val < 0x20) := by
        intro h; rcases h with h | h
        · rw [h] at hb; revert hb; decide
        · omega
      have hd := hdec tail'
      rw [htake]
      rw [hpre] at hd ⊢
      rw [List.cons_append] at hd ⊢
      simp only [unquoteStep, h92, h34, hb', if_false, hd, henc, hpre]

/-- One turn of the loops on any string whose first rune is valid. -/
theorem stepOK (b : Byte) (rest : GoString) (hv : DecodeRune (b :: rest) ≠ (RuneError, 1)) :
    StepOK (b :: rest) := by
  by_cases hb : b.val < 0x80
  · exact stepOK_ascii b rest hb
  · exact stepOK_multibyte b rest (by omega) hv

theorem ValidStringAux_cons {fuel : Nat} {b : Byte} {rest : GoString}
    (h : ValidStringAux (fuel + 1) (b :: rest) = true) :
    DecodeRune (b :: rest) ≠ (RuneError, 1) ∧
      ValidStringAux fuel ((b :: rest).drop (DecodeRune (b :: rest)).2) = true := by
  rw [ValidStringAux] at h
  split at h
  · exact absurd h (by simp)
  · rename_i hn
    refine ⟨fun e => hn ?_, h⟩
    rw [e]; exact ⟨rfl, rfl⟩

/-- The string literal written by the loop of `appendString` for a valid UTF-8 string is
read back as the string, the input after the closing quote being left over. -/
theorem readStringAux_appendStringAux : ∀ (fuel : Nat) (s : GoString), s.length ≤ fuel →
    ValidStringAux fuel s = true → ∀ (fuel2 : Nat) (tail : GoString),
    (appendStringAux fuel s).length < fuel2 →
    readStringAux fuel2 (appendStringAux fuel s ++ 34 :: tail) = some (s, tail) := by
  intro fuel
  induction fuel with
  | zero =>
    intro s hs _ fuel2 tail hf
    have : s = [] := List.eq_nil_of_length_eq_zero (by omega)
    subst this
    obtain ⟨g, rfl⟩ : ∃ g, fuel2 = g + 1 := ⟨fuel2 - 1, by omega⟩
    simp [appendStringAux, readStringAux]
  | succ f ih =>
    intro s hs hvalid fuel2 tail hf
    obtain ⟨g, rfl⟩ : ∃ g, fuel2 = g + 1 := ⟨fuel2 - 1, by omega⟩
    cases s with
    | nil => simp [appendStringAux, readStringAux]
    | cons b rest =>
      obtain ⟨hv, hvt⟩ := ValidStringAux_cons hvalid
      have ok := stepOK b rest hv
      obtain ⟨o, os, ho, hne⟩ := ok.head
      rw [← ok.width] at hvt
      have hlen : ((b :: rest).drop (appendStep (b :: rest)).2).length ≤ f := by
        have := ok.pos
        simp only [List.length_drop, List.length_cons] at hs ⊢
        omega
      have happ : appendStringAux (f + 1) (b :: rest) = (appendStep (b :: rest)).1 ++
          appendStringAux f ((b :: rest).drop (appendStep (b :: rest)).2) := rfl
      rw [happ] at hf ⊢
      have hf' : (appendStringAux f ((b :: rest).drop (appendStep (b :: rest)).2)).length < g := by
        rw [List.length_append, ho] at hf
        simp only [List.length_cons] at hf
        omega
      have hrec := ih _ hlen hvt g tail hf'
      have hback := ok.back (appendStringAux f ((b :: rest).drop (appendStep (b :: rest)).2) ++
        34 :: tail)
      rw [List.append_assoc]
      generalize hX : appendStringAux f ((b :: rest).drop (appendStep (b :: rest)).2) ++
        34 :: tail = X at hrec hback ⊢
      rw [ho] at hback ⊢
      rw [List.cons_append] at hback ⊢
      rw [readStringAux, if_neg hne, hback]
      have hdrop : (o :: (os ++ X)).drop (o :: os).length = X := by
        rw [← List.cons_append, List.drop_left]
      simp only [hdrop, hrec, List.take_append_drop]

/-- The string literal `appendString` writes for a valid UTF-8 string is read back as the
string. -/
theorem readString_appendString (s tail : GoString) (h : ValidString s = true) :
    readString (appendString s ++ tail) = some (s, tail) := by
  have e : appendString s ++ tail = 34 :: (appendStringAux s.length s ++ 34 :: tail) := by
    simp [appendString]
  rw [e, readString]
  exact readStringAux_appendStringAux s.length s (Nat.le_refl _) h _ tail (by simp)


theorem skipSpace_appendString (s tail : GoString) :
    skipSpace (appendString s ++ tail) = appendString s ++ tail := by
  simp [appendString, skipSpace]

/-- One member `"key":"value"` of an object is read as the key and the value. -/
theorem readMember (key value tail : GoString) (hk : ValidString key = true)
    (hv : ValidString value = true) :
    readString (skipSpace (appendString key ++ 58 :: (appendString value ++ tail))) =
        some (key, 58 :: (appendString value ++ tail)) ∧
      readString (skipSpace (appendString value ++ tail)) = some (value, tail) := by
  rw [skipSpace_appendString, skipSpace_appendString]
  exact ⟨readString_appendString key _ hk, readString_appendString value _ hv⟩

theorem Marshal_eq (d : CreateDomain) :
    Marshal d = 123 :: (appendString (lit "Name") ++ 58 :: (appendString d.Name ++
      44 :: (appendString (lit "ReturnPathDomain") ++ 58 ::
        (appendString d.ReturnPathDomain ++ [125])))) := by
  have h1 : lit "\x7b\"Name\":" = 123 :: (appendString (lit "Name") ++ [58]) := by decide
  have h2 : lit ",\"ReturnPathDomain\":" =
      44 :: (appendString (lit "ReturnPathDomain") ++ [58]) := by decide
  have h3 : lit "\x7d" = [125] := by decide
  rw [Marshal, h1, h2, h3]
  simp

/-- Decoding the body `Marshal` writes for a value with valid UTF-8 strings gives the
value back, whatever the destination held. -/
theorem Unmarshal_Marshal (d v : CreateDomain) (hn : ValidString d.Name = true)
    (hr : ValidString d.ReturnPathDomain = true) : Unmarshal (Marshal d) v = some d := by
  have hkn : ValidString (lit "Name") = true := by decide
  have hkr : ValidString (lit "ReturnPathDomain") = true := by decide
  have hne : lit "ReturnPathDomain" ≠ lit "Name" := by decide
  obtain ⟨n, hlen⟩ : ∃ n, (Marshal d).length = n + 2 := by
    have h2 : 2 ≤ (Marshal d).length := by
      rw [Marshal_eq]
      simp only [List.length_cons, List.length_append]
      omega
    exact ⟨(Marshal d).length - 2, by omega⟩
  have hq : ∀ s t : GoString, appendString s ++ t =
      34 :: (appendStringAux s.length s ++ 34 :: t) := by
    intro s t; simp [appendString]
  obtain ⟨m1k, m1v⟩ := readMember (lit "Name") d.Name
    (44 :: (appendString (lit "ReturnPathDomain") ++ 58 ::
      (appendString d.ReturnPathDomain ++ [125]))) hkn hn
  obtain ⟨m2k, m2v⟩ := readMember (lit "ReturnPathDomain") d.ReturnPathDomain [125] hkr hr
  rw [Unmarshal, hlen, Marshal_eq]
  have s1 : ∀ t : GoString, skipSpace (123 :: t) = 123 :: t := fun t => by simp [skipSpace]
  have s2 : ∀ t : GoString, skipSpace (58 :: t) = 58 :: t := fun t => by simp [skipSpace]
  have s3 : ∀ t : GoString, skipSpace (44 :: t) = 44 :: t := fun t => by simp [skipSpace]
  have s4 : ∀ t : GoString, skipSpace (125 :: t) = 125 :: t := fun t => by simp [skipSpace]
  have s5 : skipSpace [] = [] := rfl
  rw [s1]
  simp only [skipSpace_appendString]
  rw [hq (lit "Name")]
  simp only []
  rw [← hq (lit "Name")]
  simp only [readMembers, m1k, m1v, m2k, m2v, s2, s3, s4, s5, setField, hne, if_true, if_false]


/-- Every turn of the encoding loop takes one byte at least and no more than there are. -/
theorem appendStep_width (b : Byte) (rest : GoString) :
    1 ≤ (appendStep (b :: rest)).2 ∧ (appendStep (b :: rest)).2 ≤ (b :: rest).length := by
  by_cases hv : DecodeRune (b :: rest) = (RuneError, 1)
  · by_cases hb : b.val < 0x80
    · exact ⟨(stepOK_ascii b rest hb).pos, (stepOK_ascii b rest hb).le⟩
    · have : appendStep (b :: rest) = ([92, 117, 102, 102, 102, 100], 1) := by
        simp [appendStep, hb, hv]
      rw [this]
      simp
  · exact ⟨(stepOK b rest hv).pos, (stepOK b rest hv).le⟩

/-- The loop of `appendString` never runs out of fuel: more fuel than the length of the
string changes nothing. -/
theorem appendStringAux_fuel : ∀ (fuel : Nat) (s : GoString), s.length ≤ fuel →
    appendStringAux fuel s = appendStringAux s.length s := by
  intro fuel
  induction fuel using Nat.strong_induction_on with
  | _ fuel ih =>
    intro s hs
    cases s with
    | nil => cases fuel <;> rfl
    | cons b rest =>
      obtain ⟨f, rfl⟩ : ∃ f, fuel = f + 1 := ⟨fuel - 1, by simp at hs; omega⟩
      have hw := appendStep_width b rest
      have hl : ((b :: rest).drop (appendStep (b :: rest)).2).length ≤ rest.length := by
        simp only [List.length_drop, List.length_cons]
        omega
      have hf : rest.length ≤ f := by simpa using hs
      show (appendStep (b :: rest)).1 ++ appendStringAux f _ =
        (appendStep (b :: rest)).1 ++ appendStringAux rest.length _
      rw [ih f (Nat.lt_succ_self f) _ (by omega)]
      by_cases hr : rest.length = f
      · rw [hr, ih f (Nat.lt_succ_self f) _ (by omega)]
      · rw [ih rest.length (by omega) _ hl]

/-! ## The claims -/

/-- C1: for every domainID, whenever the value the request executor decoded into the
`APIError` of `DeleteDomain` has a non-zero `ErrorCode`, `DeleteDomain` returns exactly
that `APIError` (same `ErrorCode`, same `Message`), whatever error the request executor
itself returned. -/
theorem DeleteDomain_returns_decoded_APIError (client : Client) (domainID : GoString)
    (h : (client.doRequest .APIError (Descriptor.Delete domainID) {}).1.ErrorCode ≠ 0) :
    client.DeleteDomain domainID =
      some (.ofAPIError (client.doRequest .APIError (Descriptor.Delete domainID) {}).1) := by
  rw [DeleteDomain_eq, if_pos h]

/-- C1 at concrete inputs: the decoded body `{"ErrorCode":702,"Message":"Invalid domain ID"}`
gives the error `APIError{702, "Invalid domain ID"}`, and a decoded `ErrorCode` of 702
is returned as an `APIError` also when the request executor returned an error of its own. -/
theorem DeleteDomain_returns_decoded_APIError_witness :
    providerErrorClient.DeleteDomain (lit "1234") =
        some (.ofAPIError { ErrorCode := 702, Message := lit "Invalid domain ID" }) ∧
      typeErrorClient.DeleteDomain (lit "1234") =
        some (.ofAPIError { ErrorCode := 702, Message := [] }) :=
  ⟨DeleteDomain_returns_decoded_APIError providerErrorClient (lit "1234") (by decide),
   DeleteDomain_returns_decoded_APIError typeErrorClient (lit "1234") (by decide)⟩

/-- C2: `DeleteDomain` returns a nil error if and only if the decoded `ErrorCode` is
exactly zero and the request executor returned no error; and whenever the decoded
`ErrorCode` is zero, `DeleteDomain` returns the request executor's error, so a failure
the executor reports with an `ErrorCode` of zero is still a failure. -/
theorem DeleteDomain_nil_iff (client : Client) (domainID : GoString) :
    (client.DeleteDomain domainID = none ↔
      ((client.doRequest .APIError (Descriptor.Delete domainID) {}).1.ErrorCode = 0 ∧
        (client.doRequest .APIError (Descriptor.Delete domainID) {}).2 = none)) ∧
    ((client.doRequest .APIError (Descriptor.Delete domainID) {}).1.ErrorCode = 0 →
      client.DeleteDomain domainID =
        (client.doRequest .APIError (Descriptor.Delete domainID) {}).2) := by
  rw [DeleteDomain_eq]
  by_cases h : (client.doRequest .APIError (Descriptor.Delete domainID) {}).1.ErrorCode = 0
  · simp [h]
  · simp [h]

/-- C2 at concrete inputs: the decoded body `{"ErrorCode":0,"Message":"OK"}` of a
successful request gives nil, and a failed request whose decoded `ErrorCode` is zero
gives the executor's error. -/
theorem DeleteDomain_nil_iff_witness :
    okClient.DeleteDomain (lit "1234") = none ∧
      statusErrorClient.DeleteDomain (lit "1234") =
        some (.other (lit "500 Internal Server Error")) :=
  ⟨(DeleteDomain_nil_iff okClient (lit "1234")).1.mpr ⟨by decide, by decide⟩,
   (DeleteDomain_nil_iff statusErrorClient (lit "1234")).2 (by decide)⟩

/-- C3 fails for `GetDomain`: the response to the request of `GetDomain` carries the
`ErrorCode` 702 (decoding it into an `APIError` gives 702), the request executor returns
no error, and `GetDomain` returns the zero `Domain` with a nil error. -/
theorem GetDomain_ignores_nonzero_ErrorCode :
    (providerErrorClient.doRequest .APIError (Descriptor.Get (lit "1234")) {}).1.ErrorCode = 702 ∧
      (providerErrorClient.doRequest .Domain (Descriptor.Get (lit "1234")) {}).2 = none ∧
      providerErrorClient.GetDomain (lit "1234") = ({}, none) := by
  refine ⟨by decide, by decide, ?_⟩
  rw [GetDomain_eq]
  decide

/-- C3 as amended: `DeleteDomain` returns a non-nil error whenever the decoded
`ErrorCode` is non-zero, whether or not the request executor returned an error; each of
the seven operations that return a record returns a non-nil error exactly when the
request executor returns one (their records have no `ErrorCode` field). -/
theorem failure_reported (client : Client) (count offset : Int) (domainID : GoString)
    (domain : CreateDomain) (template : EditDomain) :
    ((client.doRequest .APIError (Descriptor.Delete domainID) {}).1.ErrorCode ≠ 0 →
      client.DeleteDomain domainID ≠ none) ∧
    ((client.GetDomains count offset).2 ≠ none ↔
      (client.doRequest .DomainList (Descriptor.List count offset) {}).2 ≠ none) ∧
    ((client.GetDomain domainID).2 ≠ none ↔
      (client.doRequest .Domain (Descriptor.Get domainID) {}).2 ≠ none) ∧
    ((client.CreateDomain domain).2 ≠ none ↔
      (client.doRequest .Domain (Descriptor.Create domain) {}).2 ≠ none) ∧
    ((client.EditDomain domainID template).2 ≠ none ↔
      (client.doRequest .Domain (Descriptor.Edit domainID template) {}).2 ≠ none) ∧
    ((client.VerifyDKIM domainID).2 ≠ none ↔
      (client.doRequest .Domain (Descriptor.VerifyDKIM domainID) {}).2 ≠ none) ∧
    ((client.VerifyReturnPath domainID).2 ≠ none ↔
      (client.doRequest .Domain (Descriptor.VerifyReturnPath domainID) {}).2 ≠ none) ∧
    ((client.RotateDKIM domainID).2 ≠ none ↔
      (client.doRequest .RotatedDKIM (Descriptor.RotateDKIM domainID) {}).2 ≠ none) := by
  rw [DeleteDomain_eq, GetDomains_eq, GetDomain_eq, CreateDomain_eq, EditDomain_eq,
    VerifyDKIM_eq, VerifyReturnPath_eq, RotateDKIM_eq]
  refine ⟨fun h => ?_, Iff.rfl, Iff.rfl, Iff.rfl, Iff.rfl, Iff.rfl, Iff.rfl, Iff.rfl⟩
  rw [if_pos h]
  exact Option.some_ne_none _

/-- C3 as amended, at concrete inputs: the body with `ErrorCode` 702 under HTTP 200 makes
`DeleteDomain` fail, and a request the executor fails makes `GetDomain` fail. -/
theorem failure_reported_witness :
    providerErrorClient.DeleteDomain (lit "1234") ≠ none ∧
      (statusErrorClient.GetDomain (lit "1234")).2 ≠ none :=
  ⟨(failure_reported providerErrorClient 10 0 (lit "1234") {} {}).1 (by decide),
   (failure_reported statusErrorClient 10 0 (lit "1234") {} {}).2.2.1.mpr (by decide)⟩

/-- C4: for all integers `count` and `offset` (every `int64` among them), `GetDomains` is
one call of the request executor with the method GET, the server credential, no payload
and the path `domains?count=<count in decimal>&offset=<offset in decimal>`; the query
string has exactly the two items `count=<count>` and `offset=<offset>`, in this order. -/
theorem GetDomains_descriptor (client : Client) (count offset : Int) :
    client.GetDomains count offset =
        client.doRequest .DomainList
          { Method := lit "GET"
            Path := lit "domains?count=" ++ decimal count ++ lit "&offset=" ++ decimal offset
            Payload := none
            TokenType := .server_token } {} ∧
      queryItems (lit "count=" ++ decimal count ++ lit "&offset=" ++ decimal offset) =
        [lit "count=" ++ decimal count, lit "offset=" ++ decimal offset] :=
  ⟨GetDomains_eq client count offset, queryItems_count_offset count offset⟩

/-- C4 at a concrete input: `GetDomains(10, 0)` asks for the path
`domains?count=10&offset=0`. -/
theorem GetDomains_descriptor_witness :
    pathEcho.GetDomains 10 0 = ({}, some (.other (lit "domains?count=10&offset=0"))) ∧
      queryItems (lit "count=10&offset=0") = [lit "count=10", lit "offset=0"] := by
  decide

/-- C5: for every string domainID (no validation, no escaping: the bytes are put into
the path as they are) and every payload, each operation other than the list is one call
of the request executor with the descriptor of its row of the table and the server
credential. -/
theorem operation_descriptors (client : Client) (domainID : GoString)
    (domain : CreateDomain) (template : EditDomain) :
    client.GetDomain domainID =
        client.doRequest .Domain
          { Method := lit "GET", Path := lit "domains/" ++ domainID, Payload := none,
            TokenType := .server_token } {} ∧
      client.CreateDomain domain =
        client.doRequest .Domain
          { Method := lit "POST", Path := lit "domains",
            Payload := some (.ofCreateDomain domain), TokenType := .server_token } {} ∧
      client.EditDomain domainID template =
        client.doRequest .Domain
          { Method := lit "PUT", Path := lit "domains/" ++ domainID,
            Payload := some (.ofEditDomain template), TokenType := .server_token } {} ∧
      client.DeleteDomain domainID =
        (let out := client.doRequest .APIError
          { Method := lit "DELETE", Path := lit "domains/" ++ domainID, Payload := none,
            TokenType := .server_token } {}
         if out.1.ErrorCode ≠ 0 then some (.ofAPIError out.1) else out.2) ∧
      client.VerifyDKIM domainID =
        client.doRequest .Domain
          { Method := lit "PUT", Path := lit "domains/" ++ domainID ++ lit "/verifyDkim",
            Payload := none, TokenType := .server_token } {} ∧
      client.VerifyReturnPath domainID =
        client.doRequest .Domain
          { Method := lit "PUT", Path := lit "domains/" ++ domainID ++ lit "/verifyReturnPath",
            Payload := none, TokenType := .server_token } {} ∧
      client.RotateDKIM domainID =
        client.doRequest .RotatedDKIM
          { Method := lit "POST", Path := lit "domains/" ++ domainID ++ lit "/rotatedkim",
            Payload := none, TokenType := .server_token } {} :=
  ⟨GetDomain_eq client domainID, CreateDomain_eq client domain,
   EditDomain_eq client domainID template, DeleteDomain_eq client domainID,
   VerifyDKIM_eq client domainID, VerifyReturnPath_eq client domainID,
   RotateDKIM_eq client domainID⟩

/-- C5 at concrete inputs: an identifier made of `/`, `?`, `#` and a space, and the empty
identifier, are put into the path verbatim. -/
theorem operation_descriptors_witness :
    pathEcho.VerifyDKIM (lit "a/b?c#d e") =
        ({}, some (.other (lit "domains/a/b?c#d e/verifyDkim"))) ∧
      pathEcho.GetDomain [] = ({}, some (.other (lit "domains/"))) ∧
      pathEcho.RotateDKIM [] = ({}, some (.other (lit "domains//rotatedkim"))) := by
  decide

/-- C6 fails for `DeleteDomain`: the request executor returns the error
`json: cannot unmarshal number` after it decoded the `ErrorCode` 702, and `DeleteDomain`
returns the `APIError` with code 702 in place of the executor's error. -/
theorem DeleteDomain_replaces_executor_error :
    (typeErrorClient.doRequest .APIError (Descriptor.Delete (lit "1234")) {}).2 =
        some (.other (lit "json: cannot unmarshal number")) ∧
      typeErrorClient.DeleteDomain (lit "1234") =
        some (.ofAPIError { ErrorCode := 702, Message := [] }) ∧
      typeErrorClient.DeleteDomain (lit "1234") ≠
        (typeErrorClient.doRequest .APIError (Descriptor.Delete (lit "1234")) {}).2 := by
  rw [DeleteDomain_eq]
  decide

/-- C6 as amended: each of the seven operations that return a record returns exactly the
error the request executor returned; `DeleteDomain` returns exactly the executor's error
whenever the decoded `ErrorCode` is zero. -/
theorem executor_error_returned (client : Client) (count offset : Int) (domainID : GoString)
    (domain : CreateDomain) (template : EditDomain) :
    (client.GetDomains count offset).2 =
        (client.doRequest .DomainList (Descriptor.List count offset) {}).2 ∧
      (client.GetDomain domainID).2 =
        (client.doRequest .Domain (Descriptor.Get domainID) {}).2 ∧
      (client.CreateDomain domain).2 =
        (client.doRequest .Domain (Descriptor.Create domain) {}).2 ∧
      (client.EditDomain domainID template).2 =
        (client.doRequest .Domain (Descriptor.Edit domainID template) {}).2 ∧
      (client.VerifyDKIM domainID).2 =
        (client.doRequest .Domain (Descriptor.VerifyDKIM domainID) {}).2 ∧
      (client.VerifyReturnPath domainID).2 =
        (client.doRequest .Domain (Descriptor.VerifyReturnPath domainID) {}).2 ∧
      (client.RotateDKIM domainID).2 =
        (client.doRequest .RotatedDKIM (Descriptor.RotateDKIM domainID) {}).2 ∧
      ((client.doRequest .APIError (Descriptor.Delete domainID) {}).1.ErrorCode = 0 →
        client.DeleteDomain domainID =
          (client.doRequest .APIError (Descriptor.Delete domainID) {}).2) := by
  rw [DeleteDomain_eq, GetDomains_eq, GetDomain_eq, CreateDomain_eq, EditDomain_eq,
    VerifyDKIM_eq, VerifyReturnPath_eq, RotateDKIM_eq]
  refine ⟨rfl, rfl, rfl, rfl, rfl, rfl, rfl, fun h => ?_⟩
  simp [h]

/-- C6 as amended, at concrete inputs: the error of a failed connection comes back
unchanged from `CreateDomain` and from `DeleteDomain`. -/
theorem executor_error_returned_witness :
    (transportErrorClient.CreateDomain
        { Name := lit "example.com", ReturnPathDomain := lit "pm-bounces.example.com" }).2 =
        some (.other (lit "connection refused")) ∧
      transportErrorClient.DeleteDomain (lit "1234") =
        some (.other (lit "connection refused")) :=
  ⟨(executor_error_returned transportErrorClient 10 0 (lit "1234")
      { Name := lit "example.com", ReturnPathDomain := lit "pm-bounces.example.com" } {}).2.2.1,
   (executor_error_returned transportErrorClient 10 0 (lit "1234") {} {}).2.2.2.2.2.2.2
      (by decide)⟩

/-- C7 fails for `GetDomain`: the request executor writes the field `Name` and then
returns a decoding error; `GetDomain` returns a non-nil error together with a `Domain`
that is not the zero value. -/
theorem GetDomain_returns_written_fields_with_error :
    typeErrorClient.GetDomain (lit "1234") =
        ({ Name := lit "example.com" }, some (.other (lit "json: cannot unmarshal string"))) ∧
      (typeErrorClient.GetDomain (lit "1234")).2 ≠ none ∧
      (typeErrorClient.GetDomain (lit "1234")).1 ≠ {} := by
  rw [GetDomain_eq]
  decide

/-- C7 as amended: for each of the seven operations that return a record and for every
call, the returned record is the destination as the request executor left it on that
call, starting from the zero value, and the returned error is the executor's; so
whenever the executor leaves the destination of the call as it found it, the returned
record is the zero value of its type, whatever the error, and the fields the executor
wrote before failing are returned together with the error. -/
theorem zero_value_when_destination_untouched (client : Client) (count offset : Int)
    (domainID : GoString) (domain : CreateDomain) (template : EditDomain) :
    (client.GetDomains count offset =
        client.doRequest .DomainList (Descriptor.List count offset) {} ∧
      ((client.doRequest .DomainList (Descriptor.List count offset) {}).1 = {} →
        (client.GetDomains count offset).1 = {})) ∧
    (client.GetDomain domainID = client.doRequest .Domain (Descriptor.Get domainID) {} ∧
      ((client.doRequest .Domain (Descriptor.Get domainID) {}).1 = {} →
        (client.GetDomain domainID).1 = {})) ∧
    (client.CreateDomain domain = client.doRequest .Domain (Descriptor.Create domain) {} ∧
      ((client.doRequest .Domain (Descriptor.Create domain) {}).1 = {} →
        (client.CreateDomain domain).1 = {})) ∧
    (client.EditDomain domainID template =
        client.doRequest .Domain (Descriptor.Edit domainID template) {} ∧
      ((client.doRequest .Domain (Descriptor.Edit domainID template) {}).1 = {} →
        (client.EditDomain domainID template).1 = {})) ∧
    (client.VerifyDKIM domainID =
        client.doRequest .Domain (Descriptor.VerifyDKIM domainID) {} ∧
      ((client.doRequest .Domain (Descriptor.VerifyDKIM domainID) {}).1 = {} →
        (client.VerifyDKIM domainID).1 = {})) ∧
    (client.VerifyReturnPath domainID =
        client.doRequest .Domain (Descriptor.VerifyReturnPath domainID) {} ∧
      ((client.doRequest .Domain (Descriptor.VerifyReturnPath domainID) {}).1 = {} →
        (client.VerifyReturnPath domainID).1 = {})) ∧
    (client.RotateDKIM domainID =
        client.doRequest .RotatedDKIM (Descriptor.RotateDKIM domainID) {} ∧
      ((client.doRequest .RotatedDKIM (Descriptor.RotateDKIM domainID) {}).1 = {} →
        (client.RotateDKIM domainID).1 = {})) := by
  rw [GetDomains_eq, GetDomain_eq, CreateDomain_eq, EditDomain_eq, VerifyDKIM_eq,
    VerifyReturnPath_eq, RotateDKIM_eq]
  exact ⟨⟨rfl, id⟩, ⟨rfl, id⟩, ⟨rfl, id⟩, ⟨rfl, id⟩, ⟨rfl, id⟩, ⟨rfl, id⟩, ⟨rfl, id⟩⟩

/-- C7 as amended, at concrete inputs: the executor fails the request for the domain 1234
without writing the destination, and `GetDomain` returns the zero value with the error,
while the same executor decodes a record for the domain 5678; and the `Name` the
executor wrote before its decoding error comes back together with that error. -/
theorem zero_value_when_destination_untouched_witness :
    ((notFoundClient.GetDomain (lit "1234")).1 = {} ∧
        (notFoundClient.GetDomain (lit "1234")).2 = some (.other (lit "404 Not Found")) ∧
        (notFoundClient.GetDomain (lit "5678")).1 ≠ {}) ∧
      typeErrorClient.GetDomain (lit "1234") =
        ({ Name := lit "example.com" }, some (.other (lit "json: cannot unmarshal string"))) :=
  ⟨⟨(zero_value_when_destination_untouched notFoundClient 10 0 (lit "1234") {} {}).2.1.2
      (by decide), by decide, by decide⟩,
   (zero_value_when_destination_untouched typeErrorClient 10 0 (lit "1234") {} {}).2.1.1.trans
      (by decide)⟩

/-- C8: for every domainID, when the request executor, on the call `RotateDKIM` makes,
leaves the fields `DKIMPendingHost`, `DKIMPendingTextValue` and
`SafeToRemoveRevokedKeyFromDNS` of the destination as they were handed to it and returns
no error, `RotateDKIM` returns a record in which the two strings are empty and the flag
is false, together with a nil error. -/
theorem RotateDKIM_omitted_fields_zero (client : Client) (domainID : GoString)
    (hkeep :
      (client.doRequest .RotatedDKIM (Descriptor.RotateDKIM domainID) {}).1.DKIMPendingHost =
          ({} : RotatedDKIM).DKIMPendingHost ∧
        (client.doRequest .RotatedDKIM (Descriptor.RotateDKIM domainID) {}).1.DKIMPendingTextValue =
          ({} : RotatedDKIM).DKIMPendingTextValue ∧
        (client.doRequest .RotatedDKIM (Descriptor.RotateDKIM domainID)
            {}).1.SafeToRemoveRevokedKeyFromDNS =
          ({} : RotatedDKIM).SafeToRemoveRevokedKeyFromDNS)
    (hok : (client.doRequest .RotatedDKIM (Descriptor.RotateDKIM domainID) {}).2 = none) :
    (client.RotateDKIM domainID).1.DKIMPendingHost = [] ∧
      (client.RotateDKIM domainID).1.DKIMPendingTextValue = [] ∧
      (client.RotateDKIM domainID).1.SafeToRemoveRevokedKeyFromDNS = false ∧
      (client.RotateDKIM domainID).2 = none := by
  rw [RotateDKIM_eq]
  exact ⟨hkeep.1, hkeep.2.1, hkeep.2.2, hok⟩

/-- C8 at a concrete input: the response to the rotation of the domain 1234, which has no
pending key, fills the other fields; the pending host and text are empty, the flag is
false and the error is nil.  The same executor writes the pending fields for the domain
5678. -/
theorem RotateDKIM_omitted_fields_zero_witness :
    ((noPendingKeyClient.RotateDKIM (lit "1234")).1.DKIMPendingHost = [] ∧
        (noPendingKeyClient.RotateDKIM (lit "1234")).1.DKIMPendingTextValue = [] ∧
        (noPendingKeyClient.RotateDKIM (lit "1234")).1.SafeToRemoveRevokedKeyFromDNS = false ∧
        (noPendingKeyClient.RotateDKIM (lit "1234")).2 = none) ∧
      (noPendingKeyClient.RotateDKIM (lit "1234")).1.Name = lit "example.com" ∧
      (noPendingKeyClient.RotateDKIM (lit "5678")).1.DKIMPendingHost =
        lit "pm2._domainkey.example.org" :=
  ⟨RotateDKIM_omitted_fields_zero noPendingKeyClient (lit "1234")
      (by decide) (by decide), by decide, by decide⟩

/-- C10: the path `GetDomains` asks for determines its arguments.  The request executor
`pathEcho` returns the path it is given as its error, so the error `GetDomains` returns
through it is the path that `GetDomains` built: if that path is the same for `(c1, o1)`
and for `(c2, o2)`, then `c1 = c2` and `o1 = o2`, for all integers, negative ones
included. -/
theorem GetDomains_path_injective (c1 o1 c2 o2 : Int)
    (h : (pathEcho.GetDomains c1 o1).2 = (pathEcho.GetDomains c2 o2).2) :
    c1 = c2 ∧ o1 = o2 := by
  rw [GetDomains_eq, GetDomains_eq] at h
  have hp : some (error.other (Descriptor.List c1 o1).Path) =
      some (error.other (Descriptor.List c2 o2).Path) := h
  exact path_injective (error.other.inj (Option.some.inj hp))

/-- C10 at concrete inputs: the path of the page `(-1, 23)` is
`domains?count=-1&offset=23` and gives back `-1` and `23`; and the pages `(1, 23)` and
`(12, 3)`, and `(-1, 0)` and `(1, 0)`, do not have the same path. -/
theorem GetDomains_path_injective_witness :
    ((pathEcho.GetDomains (-1) 23).2 = some (.other (lit "domains?count=-1&offset=23")) ∧
        ((-1 : Int) = -1 ∧ (23 : Int) = 23)) ∧
      (pathEcho.GetDomains 1 23).2 ≠ (pathEcho.GetDomains 12 3).2 ∧
      (pathEcho.GetDomains (-1) 0).2 ≠ (pathEcho.GetDomains 1 0).2 :=
  ⟨⟨by decide, GetDomains_path_injective (-1) 23 (-1) 23 rfl⟩,
   fun h => absurd (GetDomains_path_injective 1 23 12 3 h).1 (by decide),
   fun h => absurd (GetDomains_path_injective (-1) 0 1 0 h).1 (by decide)⟩

/-- C9 fails for a string that is not valid UTF-8: for the `Name` made of the byte `0xFF`
the request body holds the escape of U+FFFD in its place, and decoding the body gives
the `Name` `EF BF BD`, not the byte `0xFF`. -/
theorem CreateDomain_body_invalid_UTF8 :
    (bodyEcho.CreateDomain { Name := [0xFF], ReturnPathDomain := lit "pm-bounces.example.com" }).2 =
        some (.other (lit
          "\x7b\"Name\":\"\\ufffd\",\"ReturnPathDomain\":\"pm-bounces.example.com\"\x7d")) ∧
      Unmarshal (Marshal { Name := [0xFF], ReturnPathDomain := lit "pm-bounces.example.com" }) {} =
        some { Name := [0xEF, 0xBF, 0xBD], ReturnPathDomain := lit "pm-bounces.example.com" } ∧
      Unmarshal (Marshal { Name := [0xFF], ReturnPathDomain := lit "pm-bounces.example.com" }) {} ≠
        some { Name := [0xFF], ReturnPathDomain := lit "pm-bounces.example.com" } := by
  decide

/-- C9 as amended: for every `CreateDomain` value whose `Name` and `ReturnPathDomain` are
valid UTF-8, the request body `CreateDomain` hands over is the JSON serialization of the
value itself, and decoding that body back into a `CreateDomain` yields the value
unchanged. -/
theorem CreateDomain_body_roundtrip (domain : CreateDomain)
    (hName : ValidString domain.Name = true)
    (hReturnPath : ValidString domain.ReturnPathDomain = true) :
    (bodyEcho.CreateDomain domain).2 = some (.other (Marshal domain)) ∧
      Unmarshal (Marshal domain) {} = some domain :=
  ⟨rfl, Unmarshal_Marshal domain {} hName hReturnPath⟩

/-- C9 as amended, at the input of the specification: the body for
`{Name:"example.com", ReturnPathDomain:"pm-bounces.example.com"}` and its decoding. -/
theorem CreateDomain_body_roundtrip_witness :
    (bodyEcho.CreateDomain
        { Name := lit "example.com", ReturnPathDomain := lit "pm-bounces.example.com" }).2 =
        some (.other (Marshal
          { Name := lit "example.com", ReturnPathDomain := lit "pm-bounces.example.com" })) ∧
      Unmarshal (Marshal
          { Name := lit "example.com", ReturnPathDomain := lit "pm-bounces.example.com" }) {} =
        some { Name := lit "example.com", ReturnPathDomain := lit "pm-bounces.example.com" } :=
  CreateDomain_body_roundtrip
    { Name := lit "example.com", ReturnPathDomain := lit "pm-bounces.example.com" }
    (by decide) (by decide)

end Postmark
